import Mathlib

/-!
Verification of the config-file monitor reconciliation engine
(server/config-file-monitors module: readConfigFile, validateMonitorConfig,
configToMonitorBean, findOrCreateMonitor, syncConfigMonitors, getConfigFilePath).

The JavaScript source is shallowly embedded:
* JS values occurring in a parsed YAML monitor definition are modelled by `JVal`
  (strings, numbers restricted to integers, booleans, null, arrays, objects);
  an absent property is `Option.none`.
* A JS object / monitor definition / database row is a field map `Fields`
  (an association list with unique keys; lookup takes the first match).
* The persistent store, the live task registry (server.monitorList) and the
  auto-increment id counter form `ServerState`.
* Externally caused failures of R.store / R.trash are supplied by oracle
  functions returning `Option String` (none = success, some msg = the thrown
  message).  bean.validate(), monitor.stop() and bean.start() are external
  collaborators assumed not to throw.
* Side effects on the live task registry are recorded in an event trace.
-/

/-- A JavaScript value as produced by the YAML parser.  Numbers are modelled
as integers (the engine only compares interval bounds, which are integral). -/
inductive JVal where
  | str : String → JVal
  | num : Int → JVal
  | bool : Bool → JVal
  | null : JVal
  | arr : List JVal → JVal
  | obj : List (String × JVal) → JVal
deriving Repr

mutual

def JVal.decEq : (a b : JVal) → Decidable (a = b)
  | .str a, .str b => decidable_of_iff (a = b) (by simp)
  | .str _, .num _ => isFalse (fun h => JVal.noConfusion h)
  | .str _, .bool _ => isFalse (fun h => JVal.noConfusion h)
  | .str _, .null => isFalse (fun h => JVal.noConfusion h)
  | .str _, .arr _ => isFalse (fun h => JVal.noConfusion h)
  | .str _, .obj _ => isFalse (fun h => JVal.noConfusion h)
  | .num _, .str _ => isFalse (fun h => JVal.noConfusion h)
  | .num a, .num b => decidable_of_iff (a = b) (by simp)
  | .num _, .bool _ => isFalse (fun h => JVal.noConfusion h)
  | .num _, .null => isFalse (fun h => JVal.noConfusion h)
  | .num _, .arr _ => isFalse (fun h => JVal.noConfusion h)
  | .num _, .obj _ => isFalse (fun h => JVal.noConfusion h)
  | .bool _, .str _ => isFalse (fun h => JVal.noConfusion h)
  | .bool _, .num _ => isFalse (fun h => JVal.noConfusion h)
  | .bool a, .bool b => decidable_of_iff (a = b) (by simp)
  | .bool _, .null => isFalse (fun h => JVal.noConfusion h)
  | .bool _, .arr _ => isFalse (fun h => JVal.noConfusion h)
  | .bool _, .obj _ => isFalse (fun h => JVal.noConfusion h)
  | .null, .str _ => isFalse (fun h => JVal.noConfusion h)
  | .null, .num _ => isFalse (fun h => JVal.noConfusion h)
  | .null, .bool _ => isFalse (fun h => JVal.noConfusion h)
  | .null, .null => isTrue rfl
  | .null, .arr _ => isFalse (fun h => JVal.noConfusion h)
  | .null, .obj _ => isFalse (fun h => JVal.noConfusion h)
  | .arr _, .str _ => isFalse (fun h => JVal.noConfusion h)
  | .arr _, .num _ => isFalse (fun h => JVal.noConfusion h)
  | .arr _, .bool _ => isFalse (fun h => JVal.noConfusion h)
  | .arr _, .null => isFalse (fun h => JVal.noConfusion h)
  | .arr xs, .arr ys =>
      match JVal.decEqList xs ys with
      | isTrue h => isTrue (by rw [h])
      | isFalse h => isFalse (by simp [h])
  | .arr _, .obj _ => isFalse (fun h => JVal.noConfusion h)
  | .obj _, .str _ => isFalse (fun h => JVal.noConfusion h)
  | .obj _, .num _ => isFalse (fun h => JVal.noConfusion h)
  | .obj _, .bool _ => isFalse (fun h => JVal.noConfusion h)
  | .obj _, .null => isFalse (fun h => JVal.noConfusion h)
  | .obj _, .arr _ => isFalse (fun h => JVal.noConfusion h)
  | .obj xs, .obj ys =>
      match JVal.decEqObj xs ys with
      | isTrue h => isTrue (by rw [h])
      | isFalse h => isFalse (by simp [h])

def JVal.decEqList : (xs ys : List JVal) → Decidable (xs = ys)
  | [], [] => isTrue rfl
  | [], _ :: _ => isFalse (by simp)
  | _ :: _, [] => isFalse (by simp)
  | x :: xs, y :: ys =>
      match JVal.decEq x y, JVal.decEqList xs ys with
      | isTrue h1, isTrue h2 => isTrue (by rw [h1, h2])
      | isFalse h1, _ => isFalse (by simp [h1])
      | _, isFalse h2 => isFalse (by simp [h2])

def JVal.decEqObj : (xs ys : List (String × JVal)) → Decidable (xs = ys)
  | [], [] => isTrue rfl
  | [], _ :: _ => isFalse (by simp)
  | _ :: _, [] => isFalse (by simp)
  | (k, v) :: xs, (k2, v2) :: ys =>
      match String.decEq k k2, JVal.decEq v v2, JVal.decEqObj xs ys with
      | isTrue h0, isTrue h1, isTrue h2 => isTrue (by rw [h0, h1, h2])
      | isFalse h0, _, _ => isFalse (by simp [h0])
      | _, isFalse h1, _ => isFalse (by simp [h1])
      | _, _, isFalse h2 => isFalse (by simp [h2])

end

instance : DecidableEq JVal := JVal.decEq

/-- A JS object (a parsed monitor definition, or the fields of a database
row): an association list from property name to value.  Lookup takes the
first binding; all operations below keep keys unique, mirroring that JS
object keys are unique. -/
abbrev Fields := List (String × JVal)

/-- Property read: `undefined` is `none`. -/
def getField : Fields → String → Option JVal
  | [], _ => none
  | (k, v) :: rest, key => if k = key then some v else getField rest key

/-- Property write `m[key] = v`. -/
def setField (m : Fields) (key : String) (v : JVal) : Fields :=
  m.filter (fun p => p.1 != key) ++ [(key, v)]

/-- Property removal `delete m[key]`. -/
def deleteField (m : Fields) (key : String) : Fields :=
  m.filter (fun p => p.1 != key)

/-- JS object spread `\x7b ...a, ...b \x7d`: properties of `b` win. -/
def spreadFields (a b : Fields) : Fields :=
  a.filter (fun p => (getField b p.1).isNone) ++ b

/-- JS truthiness of a property value (undefined, null, "", 0 and false are
falsy; objects and arrays are truthy). -/
def jsTruthy : Option JVal → Bool
  | none => false
  | some .null => false
  | some (.str s) => !(s == "")
  | some (.num n) => !(n == 0)
  | some (.bool b) => b
  | some (.arr _) => true
  | some (.obj _) => true

/-- The test `v === undefined || v === null || v === ""` used by the
required-field check of validateMonitorConfig. -/
def fieldAbsentLike : Option JVal → Bool
  | none => true
  | some .null => true
  | some (.str s) => s == ""
  | _ => false

mutual

/-- JS string conversion of a value, as used by template interpolation and
by property-key stringification.  Arrays join their elements with commas
(null elements become empty), objects display as `[object Object]`. -/
def displayJVal : JVal → String
  | .str s => s
  | .num n => toString n
  | .bool b => bif b then "true" else "false"
  | .null => "null"
  | .arr xs => displayJValList xs
  | .obj _ => "[object Object]"

def displayJValList : List JVal → String
  | [] => ""
  | [.null] => ""
  | [x] => displayJVal x
  | .null :: y :: xs => "," ++ displayJValList (y :: xs)
  | x :: y :: xs => displayJVal x ++ "," ++ displayJValList (y :: xs)

end

/-- JSON string escaping (quote and backslash; control-character escapes of
JSON.stringify are not modelled, no escaped text occurs in the engine). -/
def jsonEscape (s : String) : String :=
  s.data.foldl
    (fun acc c =>
      if c = '"' then acc ++ "\\\""
      else if c = '\\' then acc ++ "\\\\"
      else acc.push c) ""

mutual

/-- JSON.stringify of a value. -/
def jsonStringify : JVal → String
  | .str s => "\"" ++ jsonEscape s ++ "\""
  | .num n => toString n
  | .bool b => bif b then "true" else "false"
  | .null => "null"
  | .arr xs => "[" ++ jsonStringifyList xs ++ "]"
  | .obj kvs => "\x7b" ++ jsonStringifyObj kvs ++ "\x7d"

def jsonStringifyList : List JVal → String
  | [] => ""
  | [x] => jsonStringify x
  | x :: y :: xs => jsonStringify x ++ "," ++ jsonStringifyList (y :: xs)

def jsonStringifyObj : List (String × JVal) → String
  | [] => ""
  | [(k, v)] => "\"" ++ jsonEscape k ++ "\":" ++ jsonStringify v
  | (k, v) :: y :: xs =>
      "\"" ++ jsonEscape k ++ "\":" ++ jsonStringify v ++ "," ++ jsonStringifyObj (y :: xs)

end

/-- JS ToNumber used by the `<` / `>` interval comparisons; `none` is NaN.
Strings are modelled for integer literals (the engine compares YAML numbers);
arrays convert through their joined display string, objects are NaN. -/
def strToNumber (s : String) : Option Int :=
  let t := s.trim
  if t = "" then some 0 else t.toInt?

def toNumber : JVal → Option Int
  | .num n => some n
  | .bool b => some (bif b then 1 else 0)
  | .null => some 0
  | .str s => strToNumber s
  | .arr xs => strToNumber (displayJValList xs)
  | .obj _ => none

/-- JS `v < bound` (false when ToNumber(v) is NaN). -/
def jsLtNum (v : JVal) (bound : Int) : Bool :=
  match toNumber v with
  | some n => decide (n < bound)
  | none => false

/-- JS `v > bound` (false when ToNumber(v) is NaN). -/
def jsGtNum (v : JVal) (bound : Int) : Bool :=
  match toNumber v with
  | some n => decide (bound < n)
  | none => false

/-- Default values for monitor fields (MONITOR_DEFAULTS in the source). -/
def MONITOR_DEFAULTS : Fields := [
  ("active", .bool true),
  ("interval", .num 60),
  ("retryInterval", .num 60),
  ("maxretries", .num 0),
  ("timeout", .num 48),
  ("resendInterval", .num 0),
  ("upsideDown", .bool false),
  ("ignoreTls", .bool false),
  ("maxredirects", .num 10),
  ("accepted_statuscodes", .arr [.str "200-299"]),
  ("method", .str "GET"),
  ("httpBodyEncoding", .str "json"),
  ("kafkaProducerBrokers", .str "[]"),
  ("kafkaProducerSaslOptions", .str "\x7b\x7d"),
  ("rabbitmqNodes", .str "[]"),
  ("conditions", .str "[]")]

/-- Mapping of monitor type to required fields (REQUIRED_FIELDS_BY_TYPE). -/
def REQUIRED_FIELDS_BY_TYPE : List (String × List String) := [
  ("http", ["url"]),
  ("keyword", ["url", "keyword"]),
  ("json-query", ["url", "jsonPath", "expectedValue"]),
  ("ping", ["hostname"]),
  ("port", ["hostname", "port"]),
  ("dns", ["hostname", "dns_resolve_server"]),
  ("push", []),
  ("steam", ["hostname", "port"]),
  ("gamedig", ["hostname", "port", "game"]),
  ("mqtt", ["hostname", "port", "mqttTopic"]),
  ("sqlserver", ["databaseConnectionString"]),
  ("postgres", ["databaseConnectionString"]),
  ("mysql", ["databaseConnectionString"]),
  ("mongodb", ["databaseConnectionString"]),
  ("radius", ["hostname", "radiusUsername", "radiusPassword", "radiusSecret"]),
  ("redis", ["databaseConnectionString"]),
  ("group", []),
  ("docker", ["docker_container", "docker_host"]),
  ("grpc", ["grpcUrl", "grpcServiceName", "grpcMethod"]),
  ("real-browser", ["url"]),
  ("snmp", ["hostname", "snmpOid"]),
  ("smtp", ["hostname", "port"]),
  ("rabbitmq", ["rabbitmqNodes"])]

/-- The table lookup REQUIRED_FIELDS_BY_TYPE[monitorConfig.type]: a JS
property access stringifies its key, so the type value converts through
its display string before the lookup (an array such as [http] joins to
"http" and resolves to that entry; own properties only, the prototype
chain is not modelled). -/
def lookupRequiredFields (tv : JVal) : Option (List String) :=
  (REQUIRED_FIELDS_BY_TYPE.find? (fun p => p.1 == displayJVal tv)).map (fun p => p.2)

/-- Template-interpolated display of a possibly absent property. -/
def displayField (m : Fields) (k : String) : String :=
  match getField m k with
  | none => "undefined"
  | some v => displayJVal v

/-- Error text: Monitor at index i: (apostrophe)name(apostrophe) is required. -/
def nameReqMsg (index : Nat) : String :=
  "Monitor at index " ++ toString index ++ ": 'name' is required"

/-- Error text: Monitor at index i: (apostrophe)type(apostrophe) is required. -/
def typeReqMsg (index : Nat) : String :=
  "Monitor at index " ++ toString index ++ ": 'type' is required"

/-- Error text: Monitor "nm": Unknown monitor type "ty". -/
def unknownTypeMsg (nm tydisp : String) : String :=
  "Monitor \"" ++ nm ++ "\": Unknown monitor type \"" ++ tydisp ++ "\""

/-- Error text: Monitor "nm": Field "fld" is required for type "ty". -/
def fieldReqMsg (nm fld tydisp : String) : String :=
  "Monitor \"" ++ nm ++ "\": Field \"" ++ fld ++ "\" is required for type \"" ++ tydisp ++ "\""

/-- Error text: Monitor "nm": fld must be at least 20 seconds. -/
def boundLowMsg (nm fld : String) : String :=
  "Monitor \"" ++ nm ++ "\": " ++ fld ++ " must be at least 20 seconds"

/-- Error text: Monitor "nm": fld must be at most 86400 seconds (24 hours). -/
def boundHighMsg (nm fld : String) : String :=
  "Monitor \"" ++ nm ++ "\": " ++ fld ++ " must be at most 86400 seconds (24 hours)"

/-- Validation result record of validateMonitorConfig. -/
structure ValidationResult where
  valid : Bool
  errors : List String
deriving Repr, DecidableEq

/-- The interval / retryInterval bound check of validateMonitorConfig:
performed only when the property is present (not undefined); each violated
bound pushes one error.  The source repeats this code once for "interval"
and once for "retryInterval" with the field name inlined in the text. -/
def intervalBoundErrs (m : Fields) (nm fld : String) : List String :=
  match getField m fld with
  | none => []
  | some v =>
      (if jsLtNum v 20 then [boundLowMsg nm fld] else []) ++
      (if jsGtNum v 86400 then [boundHighMsg nm fld] else [])

/-- validateMonitorConfig(monitorConfig, index): accumulates all errors of
one definition (name required; type required and known; per-type required
fields present, non-null, non-empty; interval and retryInterval bounds),
valid iff no errors. -/
def validateMonitorConfig (monitorConfig : Fields) (index : Nat) : ValidationResult :=
  let nm := displayField monitorConfig "name"
  let nameErrs :=
    if jsTruthy (getField monitorConfig "name") then [] else [nameReqMsg index]
  let typeErrs :=
    match getField monitorConfig "type" with
    | none => [typeReqMsg index]
    | some tv =>
        if jsTruthy (some tv) then
          match lookupRequiredFields tv with
          | none => [unknownTypeMsg nm (displayJVal tv)]
          | some requiredFields =>
              (requiredFields.filter (fun f => fieldAbsentLike (getField monitorConfig f))).map
                (fun f => fieldReqMsg nm f (displayJVal tv))
        else [typeReqMsg index]
  let errors :=
    nameErrs ++ typeErrs ++
    intervalBoundErrs monitorConfig nm "interval" ++
    intervalBoundErrs monitorConfig nm "retryInterval"
  { valid := errors.isEmpty, errors := errors }

/-- The structured fields JSON-serialized by configToMonitorBean. -/
def jsonFields : List String :=
  ["kafkaProducerBrokers", "kafkaProducerSaslOptions", "rabbitmqNodes", "conditions"]

/-- One pass of the jsonFields loop: if the property is present and not a
string, replace it by its JSON serialization. -/
def applyJsonField (m : Fields) (f : String) : Fields :=
  match getField m f with
  | none => m
  | some (.str _) => m
  | some v => setField m f (.str (jsonStringify v))

/-- The accepted_statuscodes handling of configToMonitorBean: an array value
is JSON-serialized into accepted_statuscodes_json, a string value is copied
there, anything else sets no accepted_statuscodes_json. -/
def applyStatuscodes (monitor : Fields) : Fields :=
  match getField monitor "accepted_statuscodes" with
  | some (.arr xs) =>
      setField monitor "accepted_statuscodes_json" (.str (jsonStringify (.arr xs)))
  | some (.str s) => setField monitor "accepted_statuscodes_json" (.str s)
  | _ => monitor

/-- configToMonitorBean(config, userId): spread defaults under the declared
fields; convert accepted_statuscodes to accepted_statuscodes_json (stringify
an array, keep a string) and delete accepted_statuscodes; stringify the
non-string structured fields; set user_id and config_managed. -/
def configToMonitorBean (config : Fields) (userId : Int) : Fields :=
  let monitor := spreadFields MONITOR_DEFAULTS config
  let monitor := deleteField (applyStatuscodes monitor) "accepted_statuscodes"
  let monitor := jsonFields.foldl applyJsonField monitor
  let monitor := setField monitor "user_id" (.num userId)
  setField monitor "config_managed" (.bool true)

/-- A database monitor row (a redbean bean): id 0 means a freshly dispensed,
not yet stored bean; R.store assigns the next free id. -/
structure Bean where
  id : Nat
  fields : Fields
deriving Repr, DecidableEq

/-- The owning process state the engine mutates: the monitor table, the
auto-increment counter, and the live task registry server.monitorList
(modelled by the set of monitor ids it contains). -/
structure ServerState where
  beans : List Bean
  nextId : Nat
  monitorList : List Nat
deriving Repr, DecidableEq

/-- Observable actions on the store and the live task registry, in order. -/
inductive Event where
  | taskStopped : Nat → Event
  | taskStarted : Nat → Event
  | beanStored : Nat → Event
  | beanTrashed : Nat → Event
deriving Repr, DecidableEq

/-- The result record of syncConfigMonitors. -/
@[ext] structure SyncResult where
  added : Nat
  updated : Nat
  removed : Nat
  errors : List String
deriving Repr, DecidableEq

def zeroSyncResult : SyncResult := { added := 0, updated := 0, removed := 0, errors := [] }

/-- The row predicate of the query
`name = ? AND user_id = ? AND config_managed = 1`
(the engine stores user_id as a number and config_managed as boolean true). -/
def matchesManagedName (userId : Int) (name : Option JVal) (b : Bean) : Bool :=
  getField b.fields "name" == name &&
  getField b.fields "user_id" == some (JVal.num userId) &&
  getField b.fields "config_managed" == some (JVal.bool true)

/-- The row predicate of the query `user_id = ? AND config_managed = 1`. -/
def isManagedBy (userId : Int) (b : Bean) : Bool :=
  getField b.fields "user_id" == some (JVal.num userId) &&
  getField b.fields "config_managed" == some (JVal.bool true)

/-- findOrCreateMonitor(monitorConfig, userId): R.findOne on the managed
monitor of this user with the declared name, else R.dispense (id 0). -/
def findOrCreateMonitor (userId : Int) (name : Option JVal) (beans : List Bean) : Bean :=
  match beans.find? (matchesManagedName userId name) with
  | some b => b
  | none => { id := 0, fields := [] }

/-- R.store(bean): a dispensed bean (id 0) is inserted under the next free
id; an existing bean overwrites the row with its id.  Returns the stored
bean (with its assigned id) and the new store. -/
def storeBean (st : ServerState) (b : Bean) : Bean × ServerState :=
  if b.id = 0 then
    let b2 := { b with id := st.nextId }
    (b2, { st with beans := st.beans ++ [b2], nextId := st.nextId + 1 })
  else
    (b, { st with beans := st.beans.map (fun x => if x.id = b.id then b else x) })

/-- The bean import loop of syncConfigMonitors: every key of monitorData
except "id" is assigned onto the bean. -/
def importFields (beanFields monitorData : Fields) : Fields :=
  monitorData.filter (fun p => p.1 != "id") ++ beanFields

/-- server.monitorList[id] = bean: object-key assignment (at most one entry
per id). -/
def listInsert (l : List Nat) (id : Nat) : List Nat :=
  if l.contains id then l else l ++ [id]

/-- Error text: Error processing monitor "nm": msg. -/
def processErrMsg (nm msg : String) : String :=
  "Error processing monitor \"" ++ nm ++ "\": " ++ msg

/-- Error text: Error removing monitor "nm": msg. -/
def removeErrMsg (nm msg : String) : String :=
  "Error removing monitor \"" ++ nm ++ "\": " ++ msg

/-- The in-flight state of one reconciliation cycle: store and registry,
the result being accumulated, and the trace of emitted actions. -/
structure SyncState where
  st : ServerState
  result : SyncResult
  trace : List Event
deriving Repr, DecidableEq

/-- One iteration of the per-definition loop of syncConfigMonitors:
find-or-create the bean, overlay the converted definition, store it, count
added/updated, and (when the bean is active) stop any live task under this
id before registering and starting the new one.  `storeFail` is the outcome
of R.store (the try/catch records a thrown message as an error, identifying
the monitor by name, and leaves store, registry and counts unchanged). -/
def processedBean (userId : Int) (monitorConfig : Fields) (st : ServerState) : Bean :=
  let bean := findOrCreateMonitor userId (getField monitorConfig "name") st.beans
  let monitorData := configToMonitorBean monitorConfig userId
  { bean with fields := importFields bean.fields monitorData }

def processOne (userId : Int) (storeFail : Option String) (monitorConfig : Fields)
    (s : SyncState) : SyncState :=
  let bean := processedBean userId monitorConfig s.st
  let isNew := bean.id = 0
  match storeFail with
  | some msg =>
      { s with result :=
          { s.result with errors :=
              s.result.errors ++ [processErrMsg (displayField monitorConfig "name") msg] } }
  | none =>
      let (bean, st) := storeBean s.st bean
      let result :=
        if isNew then { s.result with added := s.result.added + 1 }
        else { s.result with updated := s.result.updated + 1 }
      let trace := s.trace ++ [Event.beanStored bean.id]
      if jsTruthy (getField bean.fields "active") then
        let trace :=
          if st.monitorList.contains bean.id then trace ++ [Event.taskStopped bean.id]
          else trace
        let st := { st with monitorList := listInsert st.monitorList bean.id }
        { st := st, result := result, trace := trace ++ [Event.taskStarted bean.id] }
      else
        { st := st, result := result, trace := trace }

/-- The per-definition loop, with the running index used to key the
R.store failure oracle. -/
def processList (userId : Int) (storeFail : Nat → Option String)
    (monitors : List Fields) (i : Nat) (s : SyncState) : SyncState :=
  match monitors with
  | [] => s
  | cfg :: rest =>
      processList userId storeFail rest (i + 1) (processOne userId (storeFail i) cfg s)

/-- One iteration of the removal loop of syncConfigMonitors: an existing
managed record whose name is absent from the declared name set has its live
task stopped and removed from the registry, then the row is deleted
(R.trash) and removed is incremented; a thrown deletion failure is recorded
by name and the loop continues. -/
def removeOne (declaredNames : List (Option JVal)) (trashFail : Option String)
    (eb : Bean) (s : SyncState) : SyncState :=
  if declaredNames.contains (getField eb.fields "name") then s
  else
    let stopped := s.st.monitorList.contains eb.id
    let st :=
      if stopped then { s.st with monitorList := s.st.monitorList.filter (fun j => j != eb.id) }
      else s.st
    let trace := if stopped then s.trace ++ [Event.taskStopped eb.id] else s.trace
    match trashFail with
    | some msg =>
        { st := st,
          result :=
            { s.result with errors :=
                s.result.errors ++ [removeErrMsg (displayField eb.fields "name") msg] },
          trace := trace }
    | none =>
        { st := { st with beans := st.beans.filter (fun b => b.id != eb.id) },
          result := { s.result with removed := s.result.removed + 1 },
          trace := trace ++ [Event.beanTrashed eb.id] }

/-- The removal loop over the managed records fetched before the
per-definition loop; the R.trash failure oracle is keyed by record id. -/
def removeList (declaredNames : List (Option JVal)) (trashFail : Nat → Option String)
    (ebs : List Bean) (s : SyncState) : SyncState :=
  match ebs with
  | [] => s
  | eb :: rest => removeList declaredNames trashFail rest (removeOne declaredNames (trashFail eb.id) eb s)

/-- The observable state of the configuration source for one cycle:
absent (no file at the path), malformed (yaml.load throws), or parsed
content, whose "monitors" member is either a present list or missing/falsy. -/
inductive FileState where
  | absent : FileState
  | malformed : FileState
  | content : Option (List Fields) → FileState
deriving Repr, DecidableEq

/-- getConfigFilePath(): returns the cached path if set; otherwise caches
and returns the environment variable when that is set (truthy), else null.
Returns the path result and the new cached value. -/
def getConfigFilePath (cached env : Option String) : Option String × Option String :=
  match cached with
  | some p => if p = "" then pathFromEnv env cached else (some p, some p)
  | none => pathFromEnv env cached
where
  pathFromEnv (env cached : Option String) : Option String × Option String :=
    match env with
    | some e => if e = "" then (none, cached) else (some e, some e)
    | none => (none, cached)

/-- readConfigFile(): null when no path is configured or the file is absent
or fails to parse; a parsed document without a truthy "monitors" member is
replaced by an empty monitor list. -/
def readConfigFile (path : Option String) (fileSt : FileState) : Option (List Fields) :=
  match path with
  | none => none
  | some _ =>
      match fileSt with
      | .absent => none
      | .malformed => none
      | .content none => some []
      | .content (some ms) => some ms

/-- The validation loop of syncConfigMonitors: every definition is checked
(with its position index) and the errors of the invalid ones are
accumulated in order. -/
def validateAll (monitors : List Fields) (i : Nat) : List String :=
  match monitors with
  | [] => []
  | m :: rest =>
      let v := validateMonitorConfig m i
      (if v.valid then [] else v.errors) ++ validateAll rest (i + 1)

/-- syncConfigMonitors(userId, server): read the config (absent or
malformed source: return the zero result untouched); validate every
definition and abort with the accumulated errors if any is invalid; else
fetch the managed records of this user, apply every declared definition,
then remove the managed records whose name is not declared.  Returns the
result, the final state, and the event trace. -/
def syncConfigMonitors (userId : Int) (path : Option String) (fileSt : FileState)
    (storeFail trashFail : Nat → Option String) (st : ServerState) :
    SyncResult × ServerState × List Event :=
  match readConfigFile path fileSt with
  | none => (zeroSyncResult, st, [])
  | some monitors =>
      let errors := validateAll monitors 0
      if errors.length > 0 then
        ({ zeroSyncResult with errors := errors }, st, [])
      else
        let existingMonitors := st.beans.filter (isManagedBy userId)
        let declaredNames := monitors.map (fun m => getField m "name")
        let s1 := processList userId storeFail monitors 0
          { st := st, result := zeroSyncResult, trace := [] }
        let s2 := removeList declaredNames trashFail existingMonitors s1
        (s2.result, s2.st, s2.trace)

/-! Basic lemmas about the validator aggregate. -/

theorem validateMonitorConfig_valid_def (m : Fields) (i : Nat) :
    (validateMonitorConfig m i).valid = (validateMonitorConfig m i).errors.isEmpty := rfl

theorem validate_if_valid_eq (m : Fields) (i : Nat) :
    (if (validateMonitorConfig m i).valid then ([] : List String)
      else (validateMonitorConfig m i).errors) = (validateMonitorConfig m i).errors := by
  rw [validateMonitorConfig_valid_def]
  cases h : (validateMonitorConfig m i).errors <;> simp [h]

theorem validateAll_eq_flatten (ms : List Fields) (i : Nat) :
    validateAll ms i
      = ((List.enumFrom i ms).map (fun pr => (validateMonitorConfig pr.2 pr.1).errors)).flatten := by
  induction ms generalizing i with
  | nil => rfl
  | cons m rest ih =>
      rw [validateAll, validate_if_valid_eq, List.enumFrom, List.map, List.flatten, ih]

theorem validateAll_nil_all_valid (ms : List Fields) (i : Nat)
    (h : validateAll ms i = []) :
    ∀ j cfg, ms[j]? = some cfg → (validateMonitorConfig cfg (i + j)).valid = true := by
  induction ms generalizing i with
  | nil => intro j cfg hj; simp at hj
  | cons m rest ih =>
      intro j cfg hj
      rw [validateAll] at h
      rcases List.append_eq_nil.mp h with ⟨h1, h2⟩
      cases j with
      | zero =>
          simp at hj
          subst hj
          rw [validateMonitorConfig_valid_def]
          rw [validate_if_valid_eq] at h1
          simp [h1]
      | succ j =>
          simp only [List.getElem?_cons_succ] at hj
          have := ih (i + 1) h2 j cfg hj
          rwa [Nat.add_assoc, Nat.add_comm 1 j] at this

/-- C1: if any declared definition fails validation, syncConfigMonitors
returns added=0, updated=0, removed=0 with an error list equal to the
concatenation, in declared order, of every definition's accumulated
validation errors, leaves the store and the counter untouched, and emits no
store or task action. -/
theorem sync_validation_gate (userId : Int) (p : String) (monitors : List Fields)
    (storeFail trashFail : Nat → Option String) (st : ServerState)
    (h : ∃ j cfg, monitors[j]? = some cfg ∧ (validateMonitorConfig cfg j).valid = false) :
    syncConfigMonitors userId (some p) (.content (some monitors)) storeFail trashFail st
      = ({ zeroSyncResult with
            errors := ((List.enumFrom 0 monitors).map
              (fun pr => (validateMonitorConfig pr.2 pr.1).errors)).flatten }, st, []) := by
  obtain ⟨j, cfg, hj, hv⟩ := h
  have hne : validateAll monitors 0 ≠ [] := by
    intro hnil
    have := validateAll_nil_all_valid monitors 0 hnil j cfg hj
    rw [Nat.zero_add] at this
    rw [hv] at this
    exact Bool.noConfusion this
  have hlen : (validateAll monitors 0).length > 0 := List.length_pos.mpr hne
  simp only [syncConfigMonitors, readConfigFile]
  rw [if_pos hlen, validateAll_eq_flatten]

/-- Witness for C1 at a concrete invalid definition (http without url). -/
theorem sync_validation_gate_witness :
    syncConfigMonitors 1 (some "p")
        (.content (some [[("name", JVal.str "A"), ("type", JVal.str "http")]]))
        (fun _ => none) (fun _ => none) { beans := [], nextId := 1, monitorList := [] }
      = ({ zeroSyncResult with
            errors := ((List.enumFrom 0 [[("name", JVal.str "A"), ("type", JVal.str "http")]]).map
              (fun pr => (validateMonitorConfig pr.2 pr.1).errors)).flatten },
          { beans := [], nextId := 1, monitorList := [] }, []) :=
  sync_validation_gate 1 "p" [[("name", JVal.str "A"), ("type", JVal.str "http")]]
    (fun _ => none) (fun _ => none) { beans := [], nextId := 1, monitorList := [] }
    ⟨0, [("name", JVal.str "A"), ("type", JVal.str "http")], rfl, by decide⟩

/-- C2 counterexample: with a present but malformed source the returned
error list is empty, not of length one as the claim states. -/
theorem sync_malformed_counterexample :
    ¬ ((syncConfigMonitors 1 (some "p") FileState.malformed (fun _ => none) (fun _ => none)
          { beans := [], nextId := 1, monitorList := [] }).1.errors.length = 1) := by
  decide

/-- C2 (amended): if the source is present but fails to parse,
syncConfigMonitors returns the zero-valued result with an empty error list
(the parse diagnostic goes to the log only), applies no mutation to the
store and emits no task action. -/
theorem sync_malformed_soft_abort (userId : Int) (p : String)
    (storeFail trashFail : Nat → Option String) (st : ServerState) :
    syncConfigMonitors userId (some p) FileState.malformed storeFail trashFail st
      = (zeroSyncResult, st, []) := rfl

/-- C10: with the path environment variable unset and nothing cached,
getConfigFilePath returns null and syncConfigMonitors is a complete no-op:
the zero result with empty error list, an untouched state and no actions. -/
theorem sync_no_path_noop (userId : Int) (fileSt : FileState)
    (storeFail trashFail : Nat → Option String) (st : ServerState) :
    (getConfigFilePath none none).1 = none ∧
    syncConfigMonitors userId (getConfigFilePath none none).1 fileSt storeFail trashFail st
      = (zeroSyncResult, st, []) := by
  refine ⟨rfl, ?_⟩
  cases fileSt <;> rfl

/-! Characterization of the removal loop. -/

/-- A fetched managed record is a removal target when its name is absent
from the declared name set. -/
def isRemovalTarget (decl : List (Option JVal)) (eb : Bean) : Bool :=
  !(decl.contains (getField eb.fields "name"))

theorem removeOne_skip (decl : List (Option JVal)) (tf : Option String) (eb : Bean)
    (s : SyncState) (h : getField eb.fields "name" ∈ decl) :
    removeOne decl tf eb s = s := by
  simp [removeOne, h]

theorem removeOne_target_monitorList (decl : List (Option JVal)) (tf : Option String)
    (eb : Bean) (s : SyncState) (h : getField eb.fields "name" ∉ decl) :
    (removeOne decl tf eb s).st.monitorList
      = s.st.monitorList.filter (fun j => j != eb.id) := by
  by_cases hc : eb.id ∈ s.st.monitorList
  · cases tf <;> simp [removeOne, h, hc]
  · have hself : s.st.monitorList.filter (fun j => j != eb.id) = s.st.monitorList := by
      refine List.filter_eq_self.mpr (fun j hj => ?_)
      simp only [bne_iff_ne, ne_eq]
      intro hEq
      exact hc (hEq ▸ hj)
    cases tf <;> simp [removeOne, h, hc, hself]

theorem removeOne_target_nextId (decl : List (Option JVal)) (tf : Option String)
    (eb : Bean) (s : SyncState) (h : getField eb.fields "name" ∉ decl) :
    (removeOne decl tf eb s).st.nextId = s.st.nextId := by
  by_cases hc : eb.id ∈ s.st.monitorList <;> cases tf <;> simp [removeOne, h, hc]

theorem removeOne_fail_beans (decl : List (Option JVal)) (msg : String)
    (eb : Bean) (s : SyncState) (h : getField eb.fields "name" ∉ decl) :
    (removeOne decl (some msg) eb s).st.beans = s.st.beans := by
  by_cases hc : eb.id ∈ s.st.monitorList <;> simp [removeOne, h, hc]

theorem removeOne_ok_beans (decl : List (Option JVal))
    (eb : Bean) (s : SyncState) (h : getField eb.fields "name" ∉ decl) :
    (removeOne decl none eb s).st.beans = s.st.beans.filter (fun b => b.id != eb.id) := by
  by_cases hc : eb.id ∈ s.st.monitorList <;> simp [removeOne, h, hc]

theorem removeOne_fail_result (decl : List (Option JVal)) (msg : String)
    (eb : Bean) (s : SyncState) (h : getField eb.fields "name" ∉ decl) :
    (removeOne decl (some msg) eb s).result
      = { s.result with errors :=
            s.result.errors ++ [removeErrMsg (displayField eb.fields "name") msg] } := by
  by_cases hc : eb.id ∈ s.st.monitorList <;> simp [removeOne, h, hc]

theorem removeOne_ok_result (decl : List (Option JVal))
    (eb : Bean) (s : SyncState) (h : getField eb.fields "name" ∉ decl) :
    (removeOne decl none eb s).result
      = { s.result with removed := s.result.removed + 1 } := by
  by_cases hc : eb.id ∈ s.st.monitorList <;> simp [removeOne, h, hc]

theorem removeOne_target_trace (decl : List (Option JVal)) (tf : Option String)
    (eb : Bean) (s : SyncState) (h : getField eb.fields "name" ∉ decl) :
    (removeOne decl tf eb s).trace
      = s.trace ++
        ((if eb.id ∈ s.st.monitorList then [Event.taskStopped eb.id] else []) ++
         (match tf with | some _ => [] | none => [Event.beanTrashed eb.id])) := by
  by_cases hc : eb.id ∈ s.st.monitorList <;> cases tf <;> simp [removeOne, h, hc]

theorem isRemovalTarget_of_not_mem (decl : List (Option JVal)) (eb : Bean)
    (h : getField eb.fields "name" ∉ decl) : isRemovalTarget decl eb = true := by
  simp [isRemovalTarget, h]

theorem isRemovalTarget_of_mem (decl : List (Option JVal)) (eb : Bean)
    (h : getField eb.fields "name" ∈ decl) : isRemovalTarget decl eb = false := by
  simp [isRemovalTarget, h]

theorem removeList_components (decl : List (Option JVal)) (tf : Nat → Option String)
    (ebs : List Bean) : ∀ (s : SyncState),
    (removeList decl tf ebs s).result.added = s.result.added ∧
    (removeList decl tf ebs s).result.updated = s.result.updated ∧
    (removeList decl tf ebs s).result.removed
      = s.result.removed
        + (ebs.filter (fun eb => isRemovalTarget decl eb && (tf eb.id).isNone)).length ∧
    (removeList decl tf ebs s).result.errors
      = s.result.errors
        ++ (ebs.filter (fun eb => isRemovalTarget decl eb && (tf eb.id).isSome)).map
             (fun eb => removeErrMsg (displayField eb.fields "name") ((tf eb.id).getD "")) ∧
    (removeList decl tf ebs s).st.beans
      = s.st.beans.filter
          (fun b => !(ebs.any (fun eb =>
              isRemovalTarget decl eb && (tf eb.id).isNone && b.id == eb.id))) ∧
    (removeList decl tf ebs s).st.nextId = s.st.nextId ∧
    (removeList decl tf ebs s).st.monitorList
      = s.st.monitorList.filter
          (fun j => !(ebs.any (fun eb => isRemovalTarget decl eb && j == eb.id))) := by
  induction ebs with
  | nil =>
      intro s
      simp [removeList]
  | cons eb rest ih =>
      intro s
      rw [removeList]
      by_cases hm : getField eb.fields "name" ∈ decl
      · rw [removeOne_skip decl (tf eb.id) eb s hm]
        obtain ⟨h1, h2, h3, h4, h5, h6, h7⟩ := ih s
        have ht : isRemovalTarget decl eb = false := isRemovalTarget_of_mem decl eb hm
        refine ⟨h1, h2, ?_, ?_, ?_, h6, ?_⟩
        · rw [h3, List.filter_cons]
          simp [ht]
        · rw [h4, List.filter_cons]
          simp [ht]
        · rw [h5]
          exact List.filter_congr (fun b _ => by simp [ht])
        · rw [h7]
          exact List.filter_congr (fun j _ => by simp [ht])
      · have ht : isRemovalTarget decl eb = true := isRemovalTarget_of_not_mem decl eb hm
        obtain ⟨h1, h2, h3, h4, h5, h6, h7⟩ := ih (removeOne decl (tf eb.id) eb s)
        cases htf : tf eb.id with
        | some msg =>
            rw [htf] at h1 h2 h3 h4 h5 h6 h7
            refine ⟨?_, ?_, ?_, ?_, ?_, ?_, ?_⟩
            · rw [h1, removeOne_fail_result decl msg eb s hm]
            · rw [h2, removeOne_fail_result decl msg eb s hm]
            · rw [h3, removeOne_fail_result decl msg eb s hm, List.filter_cons]
              simp [ht, htf]
            · rw [h4, removeOne_fail_result decl msg eb s hm, List.filter_cons]
              simp only [ht, htf, Option.isSome_some, Bool.and_true, if_pos, List.map_cons,
                Option.getD_some, List.append_assoc, List.singleton_append]
            · rw [h5, removeOne_fail_beans decl msg eb s hm]
              exact List.filter_congr (fun b _ => by simp [ht, htf])
            · rw [h6, removeOne_target_nextId decl (some msg) eb s hm]
            · rw [h7, removeOne_target_monitorList decl (some msg) eb s hm, List.filter_filter]
              exact List.filter_congr (fun j _ => by
                simp only [List.any_cons, ht, Bool.true_and, Bool.not_or, bne]
                exact Bool.and_comm _ _)
        | none =>
            rw [htf] at h1 h2 h3 h4 h5 h6 h7
            refine ⟨?_, ?_, ?_, ?_, ?_, ?_, ?_⟩
            · rw [h1, removeOne_ok_result decl eb s hm]
            · rw [h2, removeOne_ok_result decl eb s hm]
            · rw [h3, removeOne_ok_result decl eb s hm, List.filter_cons]
              simp only [ht, htf, Option.isNone_none, Bool.and_true, if_pos, List.length_cons]
              omega
            · rw [h4, removeOne_ok_result decl eb s hm, List.filter_cons]
              simp [ht, htf]
            · rw [h5, removeOne_ok_beans decl eb s hm, List.filter_filter]
              exact List.filter_congr (fun b _ => by
                simp only [List.any_cons, ht, htf, Option.isNone_none, Bool.true_and,
                  Bool.not_or, bne]
                exact Bool.and_comm _ _)
            · rw [h6, removeOne_target_nextId decl none eb s hm]
            · rw [h7, removeOne_target_monitorList decl none eb s hm, List.filter_filter]
              exact List.filter_congr (fun j _ => by
                simp only [List.any_cons, ht, Bool.true_and, Bool.not_or, bne]
                exact Bool.and_comm _ _)

/-- The per-record events of the removal loop, relative to the registry
content when the loop starts. -/
def removalEvents (decl : List (Option JVal)) (tf : Nat → Option String)
    (monitorList : List Nat) (eb : Bean) : List Event :=
  if getField eb.fields "name" ∈ decl then []
  else
    (if eb.id ∈ monitorList then [Event.taskStopped eb.id] else []) ++
    (match tf eb.id with | some _ => [] | none => [Event.beanTrashed eb.id])

theorem removeList_trace (decl : List (Option JVal)) (tf : Nat → Option String) :
    ∀ (ebs : List Bean) (s : SyncState), (ebs.map Bean.id).Nodup →
    (removeList decl tf ebs s).trace
      = s.trace ++ (ebs.map (removalEvents decl tf s.st.monitorList)).flatten := by
  intro ebs
  induction ebs with
  | nil => intro s _; simp [removeList]
  | cons eb rest ih =>
      intro s hnd
      rw [List.map_cons, List.nodup_cons] at hnd
      obtain ⟨hid, hndrest⟩ := hnd
      rw [removeList]
      by_cases hm : getField eb.fields "name" ∈ decl
      · rw [removeOne_skip decl (tf eb.id) eb s hm, ih s hndrest]
        simp [removalEvents, hm]
      · have htr := removeOne_target_trace decl (tf eb.id) eb s hm
        have hml := removeOne_target_monitorList decl (tf eb.id) eb s hm
        rw [ih (removeOne decl (tf eb.id) eb s) hndrest, htr, hml]
        have hcong :
            rest.map (removalEvents decl tf (s.st.monitorList.filter (fun j => j != eb.id)))
              = rest.map (removalEvents decl tf s.st.monitorList) := by
          refine List.map_congr_left (fun eb2 h2 => ?_)
          have hne : eb2.id ≠ eb.id := by
            intro hEq
            exact hid (hEq ▸ List.mem_map_of_mem Bean.id h2)
          have hmemEq : (eb2.id ∈ s.st.monitorList.filter (fun j => j != eb.id))
              = (eb2.id ∈ s.st.monitorList) := by
            refine propext ⟨fun hx => (List.mem_filter.mp hx).1, fun hx => ?_⟩
            exact List.mem_filter.mpr ⟨hx, by simp [hne]⟩
          simp only [removalEvents, hmemEq]
        rw [hcong, List.map_cons, List.flatten_cons, removalEvents, if_neg hm,
          List.append_assoc]

theorem sync_valid_unfold (userId : Int) (p : String) (monitors : List Fields)
    (sf tf : Nat → Option String) (st : ServerState)
    (hvalid : validateAll monitors 0 = []) :
    syncConfigMonitors userId (some p) (.content (some monitors)) sf tf st
      = ((removeList (monitors.map (fun m => getField m "name")) tf
            (st.beans.filter (isManagedBy userId))
            (processList userId sf monitors 0
              { st := st, result := zeroSyncResult, trace := [] })).result,
         (removeList (monitors.map (fun m => getField m "name")) tf
            (st.beans.filter (isManagedBy userId))
            (processList userId sf monitors 0
              { st := st, result := zeroSyncResult, trace := [] })).st,
         (removeList (monitors.map (fun m => getField m "name")) tf
            (st.beans.filter (isManagedBy userId))
            (processList userId sf monitors 0
              { st := st, result := zeroSyncResult, trace := [] })).trace) := by
  simp only [syncConfigMonitors, readConfigFile]
  rw [hvalid]
  simp

/-- C4: on a cycle that passes validation, the removal phase of
syncConfigMonitors treats exactly the fetched managed records whose name is
not declared: each such record is removed from the live task registry (with
a stop event exactly when a task handle exists), its row is deleted and
removed is incremented when R.trash succeeds, while a deletion failure only
appends an error naming the monitor and the loop continues with the
remaining records (counts, store and registry of the other records are
still processed as given by these equations). -/
theorem sync_removal_phase (userId : Int) (p : String) (monitors : List Fields)
    (sf tf : Nat → Option String) (st : ServerState)
    (hvalid : validateAll monitors 0 = [])
    (hnd : ((st.beans.filter (isManagedBy userId)).map Bean.id).Nodup) :
    (syncConfigMonitors userId (some p) (.content (some monitors)) sf tf st).1.added
        = (processList userId sf monitors 0
            { st := st, result := zeroSyncResult, trace := [] }).result.added ∧
    (syncConfigMonitors userId (some p) (.content (some monitors)) sf tf st).1.updated
        = (processList userId sf monitors 0
            { st := st, result := zeroSyncResult, trace := [] }).result.updated ∧
    (syncConfigMonitors userId (some p) (.content (some monitors)) sf tf st).1.removed
        = (processList userId sf monitors 0
            { st := st, result := zeroSyncResult, trace := [] }).result.removed
          + ((st.beans.filter (isManagedBy userId)).filter (fun eb =>
               isRemovalTarget (monitors.map (fun m => getField m "name")) eb
                 && (tf eb.id).isNone)).length ∧
    (syncConfigMonitors userId (some p) (.content (some monitors)) sf tf st).1.errors
        = (processList userId sf monitors 0
            { st := st, result := zeroSyncResult, trace := [] }).result.errors
          ++ ((st.beans.filter (isManagedBy userId)).filter (fun eb =>
                isRemovalTarget (monitors.map (fun m => getField m "name")) eb
                  && (tf eb.id).isSome)).map
              (fun eb => removeErrMsg (displayField eb.fields "name") ((tf eb.id).getD "")) ∧
    (syncConfigMonitors userId (some p) (.content (some monitors)) sf tf st).2.1.beans
        = (processList userId sf monitors 0
            { st := st, result := zeroSyncResult, trace := [] }).st.beans.filter
            (fun b => !((st.beans.filter (isManagedBy userId)).any (fun eb =>
                isRemovalTarget (monitors.map (fun m => getField m "name")) eb
                  && (tf eb.id).isNone && b.id == eb.id))) ∧
    (syncConfigMonitors userId (some p) (.content (some monitors)) sf tf st).2.1.monitorList
        = (processList userId sf monitors 0
            { st := st, result := zeroSyncResult, trace := [] }).st.monitorList.filter
            (fun j => !((st.beans.filter (isManagedBy userId)).any (fun eb =>
                isRemovalTarget (monitors.map (fun m => getField m "name")) eb
                  && j == eb.id))) ∧
    (syncConfigMonitors userId (some p) (.content (some monitors)) sf tf st).2.2
        = (processList userId sf monitors 0
            { st := st, result := zeroSyncResult, trace := [] }).trace
          ++ ((st.beans.filter (isManagedBy userId)).map
              (removalEvents (monitors.map (fun m => getField m "name")) tf
                (processList userId sf monitors 0
                  { st := st, result := zeroSyncResult, trace := [] }).st.monitorList)).flatten := by
  rw [sync_valid_unfold userId p monitors sf tf st hvalid]
  obtain ⟨h1, h2, h3, h4, h5, _h6, h7⟩ :=
    removeList_components (monitors.map (fun m => getField m "name")) tf
      (st.beans.filter (isManagedBy userId))
      (processList userId sf monitors 0 { st := st, result := zeroSyncResult, trace := [] })
  exact ⟨h1, h2, h3, h4, h5, h7,
    removeList_trace (monitors.map (fun m => getField m "name")) tf
      (st.beans.filter (isManagedBy userId))
      (processList userId sf monitors 0 { st := st, result := zeroSyncResult, trace := [] }) hnd⟩

/-- Witness for C4: one stale managed record (id 2, with a live task) is
stopped, trashed and counted while the declared record is kept. -/
theorem sync_removal_phase_witness :
    (syncConfigMonitors 1 (some "p")
        (.content (some [[("name", JVal.str "A"), ("type", JVal.str "ping"),
                          ("hostname", JVal.str "h")]]))
        (fun _ => none) (fun _ => none)
        { beans := [
            { id := 1, fields := [("name", JVal.str "A"), ("user_id", JVal.num 1),
                                  ("config_managed", JVal.bool true)] },
            { id := 2, fields := [("name", JVal.str "B"), ("user_id", JVal.num 1),
                                  ("config_managed", JVal.bool true)] }],
          nextId := 3, monitorList := [2] }).1.removed = 1 := by
  have h := sync_removal_phase 1 "p"
    [[("name", JVal.str "A"), ("type", JVal.str "ping"), ("hostname", JVal.str "h")]]
    (fun _ => none) (fun _ => none)
    { beans := [
        { id := 1, fields := [("name", JVal.str "A"), ("user_id", JVal.num 1),
                              ("config_managed", JVal.bool true)] },
        { id := 2, fields := [("name", JVal.str "B"), ("user_id", JVal.num 1),
                              ("config_managed", JVal.bool true)] }],
      nextId := 3, monitorList := [2] } (by decide) (by decide)
  rw [h.2.2.1]
  decide

/-- C9: a source that parses but has no monitors section is read as an empty
declared set without error, and the cycle then deletes every config-managed
record of the owner: removed equals their count, nothing added or updated,
no error, and no managed record of the owner remains. -/
theorem sync_no_monitors_section (userId : Int) (p : String)
    (sf tf : Nat → Option String) (st : ServerState)
    (htf : ∀ id, tf id = none) :
    readConfigFile (some p) (.content none) = some [] ∧
    (syncConfigMonitors userId (some p) (.content none) sf tf st).1
      = { added := 0, updated := 0,
          removed := (st.beans.filter (isManagedBy userId)).length, errors := [] } ∧
    (∀ b, b ∈ (syncConfigMonitors userId (some p) (.content none) sf tf st).2.1.beans →
      isManagedBy userId b = false) := by
  have hswap : syncConfigMonitors userId (some p) (.content none) sf tf st
      = syncConfigMonitors userId (some p) (.content (some [])) sf tf st := rfl
  obtain ⟨h1, h2, h3, h4, h5, _h6, _h7⟩ :=
    removeList_components ([] : List (Option JVal)) tf
      (st.beans.filter (isManagedBy userId))
      { st := st, result := zeroSyncResult, trace := [] }
  have hunfold := sync_valid_unfold userId p [] sf tf st rfl
  have htrue : ∀ eb : Bean,
      (isRemovalTarget ([] : List (Option JVal)) eb && (tf eb.id).isNone) = true := by
    intro eb
    simp [isRemovalTarget, htf eb.id]
  have hfilt : (st.beans.filter (isManagedBy userId)).filter
      (fun eb => isRemovalTarget ([] : List (Option JVal)) eb && (tf eb.id).isNone)
      = st.beans.filter (isManagedBy userId) :=
    List.filter_eq_self.mpr (fun eb _ => htrue eb)
  have hfilt2 : (st.beans.filter (isManagedBy userId)).filter
      (fun eb => isRemovalTarget ([] : List (Option JVal)) eb && (tf eb.id).isSome)
      = [] := by
    refine List.filter_eq_nil_iff.mpr (fun eb _ => ?_)
    simp [isRemovalTarget, htf eb.id]
  have hres : (removeList ([] : List (Option JVal)) tf
      (st.beans.filter (isManagedBy userId))
      { st := st, result := zeroSyncResult, trace := [] }).result
      = { added := 0, updated := 0,
          removed := (st.beans.filter (isManagedBy userId)).length, errors := [] } := by
    apply SyncResult.ext
    · rw [h1]
      rfl
    · rw [h2]
      rfl
    · rw [h3, hfilt]
      simp [zeroSyncResult]
    · rw [h4, hfilt2]
      simp [zeroSyncResult]
  refine ⟨rfl, ?_, ?_⟩
  · rw [hswap, hunfold]
    simp only [List.map_nil, processList]
    exact hres
  · rw [hswap]
    intro b hb
    rw [hunfold] at hb
    simp only [List.map_nil, processList] at hb
    rw [h5] at hb
    by_contra hman
    have hman2 : isManagedBy userId b = true := by
      revert hman
      cases isManagedBy userId b <;> simp
    have hbst := (List.mem_filter.mp hb).1
    have hpred := (List.mem_filter.mp hb).2
    have hbe : b ∈ st.beans.filter (isManagedBy userId) :=
      List.mem_filter.mpr ⟨hbst, hman2⟩
    have hany : (st.beans.filter (isManagedBy userId)).any (fun eb =>
        isRemovalTarget ([] : List (Option JVal)) eb && (tf eb.id).isNone && b.id == eb.id)
        = true := by
      refine List.any_eq_true.mpr ⟨b, hbe, ?_⟩
      simp [isRemovalTarget, htf b.id]
    rw [hany] at hpred
    simp at hpred

/-- Witness for C9 at a concrete store with one managed and one unmanaged
record. -/
theorem sync_no_monitors_section_witness :
    (syncConfigMonitors 1 (some "p") (.content none) (fun _ => none) (fun _ => none)
        { beans := [
            { id := 1, fields := [("name", JVal.str "A"), ("user_id", JVal.num 1),
                                  ("config_managed", JVal.bool true)] },
            { id := 2, fields := [("name", JVal.str "U"), ("user_id", JVal.num 1)] }],
          nextId := 3, monitorList := [1] }).1
      = { added := 0, updated := 0, removed := 1, errors := [] } := by
  have h := sync_no_monitors_section 1 "p" (fun _ => none) (fun _ => none)
    { beans := [
        { id := 1, fields := [("name", JVal.str "A"), ("user_id", JVal.num 1),
                              ("config_managed", JVal.bool true)] },
        { id := 2, fields := [("name", JVal.str "U"), ("user_id", JVal.num 1)] }],
      nextId := 3, monitorList := [1] } (fun _ => rfl)
  rw [h.2.1]
  decide

/-! String discrimination toolkit: two appended strings are distinct when
their literal tails differ at some position from the end. -/

theorem str_tail_ne (u v ta tb : String) (k : Nat) (a b : Char)
    (ha : ta.data.reverse[k]? = some a) (hb : tb.data.reverse[k]? = some b)
    (hab : a ≠ b) : u ++ ta ≠ v ++ tb := by
  intro h
  have hd := congrArg String.data h
  rw [String.data_append, String.data_append] at hd
  have hr := congrArg List.reverse hd
  rw [List.reverse_append, List.reverse_append] at hr
  have hla : k < ta.data.reverse.length := (List.getElem?_eq_some_iff.mp ha).1
  have hlb : k < tb.data.reverse.length := (List.getElem?_eq_some_iff.mp hb).1
  have h1 : (ta.data.reverse ++ u.data.reverse)[k]? = some a := by
    rw [List.getElem?_append_left hla]; exact ha
  have h2 : (tb.data.reverse ++ v.data.reverse)[k]? = some b := by
    rw [List.getElem?_append_left hlb]; exact hb
  rw [hr] at h1
  have := h2.symm.trans h1
  exact hab (Option.some.inj this).symm

theorem str_append_cancel_left {p u v : String} (h : p ++ u = p ++ v) : u = v := by
  have hd := congrArg String.data h
  rw [String.data_append, String.data_append] at hd
  exact String.ext (List.append_cancel_left hd)

theorem str_append_cancel_right {u v s : String} (h : u ++ s = v ++ s) : u = v := by
  have hd := congrArg String.data h
  rw [String.data_append, String.data_append] at hd
  exact String.ext (List.append_cancel_right hd)

/-! Pairwise distinctness of the validator error messages. -/

theorem boundLow_ne_nameReq (nm fld : String) (i : Nat) :
    boundLowMsg nm fld ≠ nameReqMsg i := by
  simp only [boundLowMsg, nameReqMsg]
  exact str_tail_ne _ _ _ _ 0 's' 'd' (by decide) (by decide) (by decide)

theorem boundLow_ne_typeReq (nm fld : String) (i : Nat) :
    boundLowMsg nm fld ≠ typeReqMsg i := by
  simp only [boundLowMsg, typeReqMsg]
  exact str_tail_ne _ _ _ _ 0 's' 'd' (by decide) (by decide) (by decide)

theorem boundLow_ne_unknownType (nm fld a b : String) :
    boundLowMsg nm fld ≠ unknownTypeMsg a b := by
  simp only [boundLowMsg, unknownTypeMsg]
  exact str_tail_ne _ _ _ _ 0 's' '"' (by decide) (by decide) (by decide)

theorem boundLow_ne_fieldReq (nm fld a f b : String) :
    boundLowMsg nm fld ≠ fieldReqMsg a f b := by
  simp only [boundLowMsg, fieldReqMsg]
  exact str_tail_ne _ _ _ _ 0 's' '"' (by decide) (by decide) (by decide)

theorem boundLow_ne_boundHigh (nm fld nm2 fld2 : String) :
    boundLowMsg nm fld ≠ boundHighMsg nm2 fld2 := by
  simp only [boundLowMsg, boundHighMsg]
  exact str_tail_ne _ _ _ _ 0 's' ')' (by decide) (by decide) (by decide)

theorem boundHigh_ne_nameReq (nm fld : String) (i : Nat) :
    boundHighMsg nm fld ≠ nameReqMsg i := by
  simp only [boundHighMsg, nameReqMsg]
  exact str_tail_ne _ _ _ _ 0 ')' 'd' (by decide) (by decide) (by decide)

theorem boundHigh_ne_typeReq (nm fld : String) (i : Nat) :
    boundHighMsg nm fld ≠ typeReqMsg i := by
  simp only [boundHighMsg, typeReqMsg]
  exact str_tail_ne _ _ _ _ 0 ')' 'd' (by decide) (by decide) (by decide)

theorem boundHigh_ne_unknownType (nm fld a b : String) :
    boundHighMsg nm fld ≠ unknownTypeMsg a b := by
  simp only [boundHighMsg, unknownTypeMsg]
  exact str_tail_ne _ _ _ _ 0 ')' '"' (by decide) (by decide) (by decide)

theorem boundHigh_ne_fieldReq (nm fld a f b : String) :
    boundHighMsg nm fld ≠ fieldReqMsg a f b := by
  simp only [boundHighMsg, fieldReqMsg]
  exact str_tail_ne _ _ _ _ 0 ')' '"' (by decide) (by decide) (by decide)

theorem str_assoc (a b c : String) : (a ++ b) ++ c = a ++ (b ++ c) :=
  String.ext (by simp)

theorem boundLow_interval_ne_retry (nm nm2 : String) :
    boundLowMsg nm "interval" ≠ boundLowMsg nm2 "retryInterval" := by
  simp only [boundLowMsg]
  rw [str_assoc ("Monitor \"" ++ nm ++ "\": ") "interval" " must be at least 20 seconds",
    str_assoc ("Monitor \"" ++ nm2 ++ "\": ") "retryInterval" " must be at least 20 seconds"]
  exact str_tail_ne _ _ _ _ 35 'i' 'I' (by decide) (by decide) (by decide)

theorem boundHigh_interval_ne_retry (nm nm2 : String) :
    boundHighMsg nm "interval" ≠ boundHighMsg nm2 "retryInterval" := by
  simp only [boundHighMsg]
  rw [str_assoc ("Monitor \"" ++ nm ++ "\": ") "interval"
      " must be at most 86400 seconds (24 hours)",
    str_assoc ("Monitor \"" ++ nm2 ++ "\": ") "retryInterval"
      " must be at most 86400 seconds (24 hours)"]
  exact str_tail_ne _ _ _ _ 48 'i' 'I' (by decide) (by decide) (by decide)

theorem fieldReq_ne_nameReq (a f b : String) (i : Nat) :
    fieldReqMsg a f b ≠ nameReqMsg i := by
  simp only [fieldReqMsg, nameReqMsg]
  exact str_tail_ne _ _ _ _ 0 '"' 'd' (by decide) (by decide) (by decide)

theorem validateMonitorConfig_errors (m : Fields) (i : Nat) :
    (validateMonitorConfig m i).errors =
      (if jsTruthy (getField m "name") then [] else [nameReqMsg i]) ++
      ((match getField m "type" with
        | none => [typeReqMsg i]
        | some tv =>
            if jsTruthy (some tv) then
              match lookupRequiredFields tv with
              | none => [unknownTypeMsg (displayField m "name") (displayJVal tv)]
              | some requiredFields =>
                  (requiredFields.filter (fun f => fieldAbsentLike (getField m f))).map
                    (fun f => fieldReqMsg (displayField m "name") f (displayJVal tv))
            else [typeReqMsg i]) ++
      (intervalBoundErrs m (displayField m "name") "interval" ++
       intervalBoundErrs m (displayField m "name") "retryInterval")) := by
  rw [validateMonitorConfig]
  simp only [List.append_assoc]

/-- The error count of a message that can only originate from the two
interval segments. -/
theorem count_validate_bound_seg (m : Fields) (i : Nat) (x : String)
    (hx1 : ∀ j, nameReqMsg j ≠ x) (hx2 : ∀ j, typeReqMsg j ≠ x)
    (hx3 : ∀ a b, unknownTypeMsg a b ≠ x) (hx4 : ∀ a f b, fieldReqMsg a f b ≠ x) :
    (validateMonitorConfig m i).errors.count x
      = (intervalBoundErrs m (displayField m "name") "interval").count x
        + (intervalBoundErrs m (displayField m "name") "retryInterval").count x := by
  rw [validateMonitorConfig_errors, List.count_append, List.count_append]
  have c1 : (if jsTruthy (getField m "name") then ([] : List String)
      else [nameReqMsg i]).count x = 0 := by
    by_cases h : jsTruthy (getField m "name") <;>
      simp [h, List.count_singleton, hx1 i]
  have c2 : ((match getField m "type" with
        | none => [typeReqMsg i]
        | some tv =>
            if jsTruthy (some tv) then
              match lookupRequiredFields tv with
              | none => [unknownTypeMsg (displayField m "name") (displayJVal tv)]
              | some requiredFields =>
                  (requiredFields.filter (fun f => fieldAbsentLike (getField m f))).map
                    (fun f => fieldReqMsg (displayField m "name") f (displayJVal tv))
            else [typeReqMsg i]) : List String).count x = 0 := by
    cases htv : getField m "type" with
    | none => simp [List.count_singleton, hx2 i]
    | some tv =>
        by_cases ht : jsTruthy (some tv)
        · simp only [ht, if_pos]
          cases hlk : lookupRequiredFields tv with
          | none => simp [List.count_singleton, hx3 (displayField m "name") (displayJVal tv)]
          | some req =>
              refine List.count_eq_zero_of_not_mem (fun hmem => ?_)
              obtain ⟨f, _, hf⟩ := List.mem_map.mp hmem
              exact hx4 (displayField m "name") f (displayJVal tv) hf
        · simp [ht, List.count_singleton, hx2 i]
  rw [c1, c2, List.count_append]
  omega

theorem intervalBoundErrs_none (m : Fields) (nm fld : String)
    (h : getField m fld = none) : intervalBoundErrs m nm fld = [] := by
  rw [intervalBoundErrs, h]

theorem count_intervalBoundErrs_ne (m : Fields) (nm fld x : String)
    (h1 : boundLowMsg nm fld ≠ x) (h2 : boundHighMsg nm fld ≠ x) :
    (intervalBoundErrs m nm fld).count x = 0 := by
  have e1 : (boundLowMsg nm fld == x) = false := beq_eq_false_iff_ne.mpr h1
  have e2 : (boundHighMsg nm fld == x) = false := beq_eq_false_iff_ne.mpr h2
  rw [intervalBoundErrs]
  cases getField m fld with
  | none => rfl
  | some v =>
      rw [List.count_append]
      by_cases c1 : jsLtNum v 20 <;> by_cases c2 : jsGtNum v 86400 <;>
        simp [c1, c2, List.count_singleton, e1, e2]

theorem count_intervalBoundErrs_low (m : Fields) (nm fld : String) (v : Int)
    (h : getField m fld = some (.num v)) :
    (intervalBoundErrs m nm fld).count (boundLowMsg nm fld)
      = if v < 20 then 1 else 0 := by
  have e2 : (boundHighMsg nm fld == boundLowMsg nm fld) = false :=
    beq_eq_false_iff_ne.mpr (boundLow_ne_boundHigh nm fld nm fld).symm
  rw [intervalBoundErrs, h, List.count_append]
  by_cases hv : v < 20 <;> by_cases hg : (86400 : Int) < v <;>
    simp [jsLtNum, jsGtNum, toNumber, hv, hg, List.count_singleton, e2]

theorem count_intervalBoundErrs_high (m : Fields) (nm fld : String) (v : Int)
    (h : getField m fld = some (.num v)) :
    (intervalBoundErrs m nm fld).count (boundHighMsg nm fld)
      = if 86400 < v then 1 else 0 := by
  have e1 : (boundLowMsg nm fld == boundHighMsg nm fld) = false :=
    beq_eq_false_iff_ne.mpr (boundLow_ne_boundHigh nm fld nm fld)
  rw [intervalBoundErrs, h, List.count_append]
  by_cases hv : v < 20 <;> by_cases hg : (86400 : Int) < v <;>
    simp [jsLtNum, jsGtNum, toNumber, hv, hg, List.count_singleton, e1]

/-- C7: when interval (resp. retryInterval) is present with a numeric value,
validateMonitorConfig accepts exactly the values in [20, 86400]: one
lower-bound error appears iff the value is below 20, one upper-bound error
iff it is above 86400 (so the boundaries produce no error), and an absent
field produces no bound error. -/
theorem validate_interval_bounds (m : Fields) (i : Nat) :
    (∀ v : Int, getField m "interval" = some (.num v) →
      (validateMonitorConfig m i).errors.count
          (boundLowMsg (displayField m "name") "interval") = (if v < 20 then 1 else 0) ∧
      (validateMonitorConfig m i).errors.count
          (boundHighMsg (displayField m "name") "interval") = (if 86400 < v then 1 else 0)) ∧
    (getField m "interval" = none →
      (validateMonitorConfig m i).errors.count
          (boundLowMsg (displayField m "name") "interval") = 0 ∧
      (validateMonitorConfig m i).errors.count
          (boundHighMsg (displayField m "name") "interval") = 0) ∧
    (∀ v : Int, getField m "retryInterval" = some (.num v) →
      (validateMonitorConfig m i).errors.count
          (boundLowMsg (displayField m "name") "retryInterval") = (if v < 20 then 1 else 0) ∧
      (validateMonitorConfig m i).errors.count
          (boundHighMsg (displayField m "name") "retryInterval") = (if 86400 < v then 1 else 0)) ∧
    (getField m "retryInterval" = none →
      (validateMonitorConfig m i).errors.count
          (boundLowMsg (displayField m "name") "retryInterval") = 0 ∧
      (validateMonitorConfig m i).errors.count
          (boundHighMsg (displayField m "name") "retryInterval") = 0) := by
  have sLi := count_validate_bound_seg m i (boundLowMsg (displayField m "name") "interval")
    (fun j => (boundLow_ne_nameReq _ _ j).symm)
    (fun j => (boundLow_ne_typeReq _ _ j).symm)
    (fun a b => (boundLow_ne_unknownType _ _ a b).symm)
    (fun a f b => (boundLow_ne_fieldReq _ _ a f b).symm)
  have sHi := count_validate_bound_seg m i (boundHighMsg (displayField m "name") "interval")
    (fun j => (boundHigh_ne_nameReq _ _ j).symm)
    (fun j => (boundHigh_ne_typeReq _ _ j).symm)
    (fun a b => (boundHigh_ne_unknownType _ _ a b).symm)
    (fun a f b => (boundHigh_ne_fieldReq _ _ a f b).symm)
  have sLr := count_validate_bound_seg m i (boundLowMsg (displayField m "name") "retryInterval")
    (fun j => (boundLow_ne_nameReq _ _ j).symm)
    (fun j => (boundLow_ne_typeReq _ _ j).symm)
    (fun a b => (boundLow_ne_unknownType _ _ a b).symm)
    (fun a f b => (boundLow_ne_fieldReq _ _ a f b).symm)
  have sHr := count_validate_bound_seg m i (boundHighMsg (displayField m "name") "retryInterval")
    (fun j => (boundHigh_ne_nameReq _ _ j).symm)
    (fun j => (boundHigh_ne_typeReq _ _ j).symm)
    (fun a b => (boundHigh_ne_unknownType _ _ a b).symm)
    (fun a f b => (boundHigh_ne_fieldReq _ _ a f b).symm)
  refine ⟨fun v hv => ⟨?_, ?_⟩, fun h0 => ⟨?_, ?_⟩, fun v hv => ⟨?_, ?_⟩, fun h0 => ⟨?_, ?_⟩⟩
  · rw [sLi, count_intervalBoundErrs_low m _ "interval" v hv,
      count_intervalBoundErrs_ne m _ "retryInterval" _
        (boundLow_interval_ne_retry _ _).symm
        (boundLow_ne_boundHigh _ "interval" _ "retryInterval").symm]
    omega
  · rw [sHi, count_intervalBoundErrs_high m _ "interval" v hv,
      count_intervalBoundErrs_ne m _ "retryInterval" _
        (boundLow_ne_boundHigh _ "retryInterval" _ "interval")
        (boundHigh_interval_ne_retry _ _).symm]
    omega
  · rw [sLi, intervalBoundErrs_none m _ "interval" h0,
      count_intervalBoundErrs_ne m _ "retryInterval" _
        (boundLow_interval_ne_retry _ _).symm
        (boundLow_ne_boundHigh _ "interval" _ "retryInterval").symm]
    rfl
  · rw [sHi, intervalBoundErrs_none m _ "interval" h0,
      count_intervalBoundErrs_ne m _ "retryInterval" _
        (boundLow_ne_boundHigh _ "retryInterval" _ "interval")
        (boundHigh_interval_ne_retry _ _).symm]
    rfl
  · rw [sLr, count_intervalBoundErrs_low m _ "retryInterval" v hv,
      count_intervalBoundErrs_ne m _ "interval" _
        (boundLow_interval_ne_retry _ _)
        (boundLow_ne_boundHigh _ "retryInterval" _ "interval").symm]
    omega
  · rw [sHr, count_intervalBoundErrs_high m _ "retryInterval" v hv,
      count_intervalBoundErrs_ne m _ "interval" _
        (boundLow_ne_boundHigh _ "interval" _ "retryInterval")
        (boundHigh_interval_ne_retry _ _)]
    omega
  · rw [sLr, intervalBoundErrs_none m _ "retryInterval" h0,
      count_intervalBoundErrs_ne m _ "interval" _
        (boundLow_interval_ne_retry _ _)
        (boundLow_ne_boundHigh _ "retryInterval" _ "interval").symm]
    rfl
  · rw [sHr, intervalBoundErrs_none m _ "retryInterval" h0,
      count_intervalBoundErrs_ne m _ "interval" _
        (boundLow_ne_boundHigh _ "interval" _ "retryInterval")
        (boundHigh_interval_ne_retry _ _)]
    rfl

/-- Witness for C7: interval 5 yields exactly one lower-bound error. -/
theorem validate_interval_bounds_witness :
    (validateMonitorConfig [("interval", JVal.num 5)] 0).errors.count
        (boundLowMsg (displayField [("interval", JVal.num 5)] "name") "interval") = 1 := by
  have h := ((validate_interval_bounds [("interval", JVal.num 5)] 0).1 5 rfl).1
  rw [h]
  decide

theorem lookupRequiredFields_nodup (tv : JVal) (req : List String)
    (h : lookupRequiredFields tv = some req) : req.Nodup := by
  rw [lookupRequiredFields] at h
  cases hf : REQUIRED_FIELDS_BY_TYPE.find? (fun p => p.1 == displayJVal tv) with
  | none => rw [hf] at h; exact Option.noConfusion h
  | some pr =>
      rw [hf] at h
      have h2 : pr.2 = req := Option.some.inj h
      have hmem := List.mem_of_find?_eq_some hf
      have hall : ∀ pr2, pr2 ∈ REQUIRED_FIELDS_BY_TYPE → pr2.2.Nodup := by decide
      rw [← h2]
      exact hall pr hmem

theorem lookupRequiredFields_truthy (tv : JVal) (req : List String)
    (h : lookupRequiredFields tv = some req) : jsTruthy (some tv) = true := by
  rw [lookupRequiredFields] at h
  cases hf : REQUIRED_FIELDS_BY_TYPE.find? (fun p => p.1 == displayJVal tv) with
  | none => rw [hf] at h; exact Option.noConfusion h
  | some pr =>
      have hp : pr.1 = displayJVal tv := by simpa using List.find?_some hf
      have hmem := List.mem_of_find?_eq_some hf
      cases tv with
      | str s =>
          have hall : ∀ pr2, pr2 ∈ REQUIRED_FIELDS_BY_TYPE → pr2.1 ≠ "" := by decide
          have hps : pr.1 = s := hp
          have hne : s ≠ "" := fun hs => hall pr hmem (hps.trans hs)
          simpa [jsTruthy] using hne
      | num n =>
          by_cases hz : n = 0
          · subst hz
            have hall : ∀ pr2, pr2 ∈ REQUIRED_FIELDS_BY_TYPE → pr2.1 ≠ "0" := by decide
            exact absurd (hp.trans (by decide)) (hall pr hmem)
          · simp [jsTruthy, hz]
      | bool b =>
          cases b with
          | true => rfl
          | false =>
              have hall : ∀ pr2, pr2 ∈ REQUIRED_FIELDS_BY_TYPE → pr2.1 ≠ "false" := by
                decide
              exact absurd (hp.trans (by decide)) (hall pr hmem)
      | null =>
          have hall : ∀ pr2, pr2 ∈ REQUIRED_FIELDS_BY_TYPE → pr2.1 ≠ "null" := by decide
          exact absurd (hp.trans (by decide)) (hall pr hmem)
      | arr xs => rfl
      | obj kvs => rfl

theorem fieldReqMsg_injective (nm ty : String) :
    Function.Injective (fun f => fieldReqMsg nm f ty) := by
  intro f g h
  simp only [fieldReqMsg] at h
  have h1 := str_append_cancel_right h
  have h2 := str_append_cancel_right h1
  have h3 := str_append_cancel_right h2
  exact str_append_cancel_left h3

/-- C6: validateMonitorConfig is valid exactly when its error list is empty;
a missing or empty name yields the index-identified name error; a missing
type yields the index-identified type error; a present truthy type outside
the table yields the unknown-type error; and for a known type every
required field that is undefined, null or empty contributes exactly one
field error (and a present one contributes none) — all failures of one
definition accumulate. -/
theorem validate_rules (m : Fields) (i : Nat) :
    ((validateMonitorConfig m i).valid = true ↔ (validateMonitorConfig m i).errors = []) ∧
    (getField m "name" = none ∨ getField m "name" = some (.str "") →
      nameReqMsg i ∈ (validateMonitorConfig m i).errors) ∧
    (getField m "type" = none → typeReqMsg i ∈ (validateMonitorConfig m i).errors) ∧
    (∀ tv, getField m "type" = some tv → jsTruthy (some tv) = true →
      lookupRequiredFields tv = none →
      unknownTypeMsg (displayField m "name") (displayJVal tv)
        ∈ (validateMonitorConfig m i).errors) ∧
    (∀ tv req, getField m "type" = some tv → lookupRequiredFields tv = some req →
      ∀ f, f ∈ req →
        (validateMonitorConfig m i).errors.count
            (fieldReqMsg (displayField m "name") f (displayJVal tv))
          = if fieldAbsentLike (getField m f) then 1 else 0) := by
  refine ⟨?_, ?_, ?_, ?_, ?_⟩
  · rw [validateMonitorConfig_valid_def]
    exact List.isEmpty_iff
  · intro h
    have ht : jsTruthy (getField m "name") = false := by
      rcases h with h | h <;> simp [h, jsTruthy]
    simp [validateMonitorConfig_errors, ht]
  · intro htype
    simp [validateMonitorConfig_errors, htype]
  · intro tv htv htruthy hlk
    simp [validateMonitorConfig_errors, htv, htruthy, hlk]
  · intro tv req htv hlk f hf
    have htruthy := lookupRequiredFields_truthy tv req hlk
    have hnd := lookupRequiredFields_nodup tv req hlk
    rw [validateMonitorConfig_errors]
    simp only [htv, htruthy, hlk, if_true]
    rw [List.count_append, List.count_append, List.count_append]
    have c1 : (if jsTruthy (getField m "name") then ([] : List String)
        else [nameReqMsg i]).count
          (fieldReqMsg (displayField m "name") f (displayJVal tv)) = 0 := by
      have e : (nameReqMsg i ==
          fieldReqMsg (displayField m "name") f (displayJVal tv)) = false :=
        beq_eq_false_iff_ne.mpr (fieldReq_ne_nameReq _ f _ i).symm
      by_cases hn : jsTruthy (getField m "name") <;>
        simp [hn, List.count_singleton, e]
    have c2 : ((req.filter (fun g => fieldAbsentLike (getField m g))).map
        (fun g => fieldReqMsg (displayField m "name") g (displayJVal tv))).count
          (fieldReqMsg (displayField m "name") f (displayJVal tv))
        = if fieldAbsentLike (getField m f) then 1 else 0 := by
      rw [List.count_map_of_injective _ _
        (fieldReqMsg_injective (displayField m "name") (displayJVal tv)) f]
      by_cases hmiss : fieldAbsentLike (getField m f)
      · rw [if_pos hmiss]
        exact List.count_eq_one_of_mem (hnd.filter _)
          (List.mem_filter.mpr ⟨hf, hmiss⟩)
      · rw [if_neg hmiss]
        refine List.count_eq_zero_of_not_mem (fun hmem => ?_)
        exact hmiss (List.mem_filter.mp hmem).2
    have c3 : (intervalBoundErrs m (displayField m "name") "interval").count
        (fieldReqMsg (displayField m "name") f (displayJVal tv)) = 0 :=
      count_intervalBoundErrs_ne m _ "interval" _
        (boundLow_ne_fieldReq _ "interval" _ f _)
        (boundHigh_ne_fieldReq _ "interval" _ f _)
    have c4 : (intervalBoundErrs m (displayField m "name") "retryInterval").count
        (fieldReqMsg (displayField m "name") f (displayJVal tv)) = 0 :=
      count_intervalBoundErrs_ne m _ "retryInterval" _
        (boundLow_ne_fieldReq _ "retryInterval" _ f _)
        (boundHigh_ne_fieldReq _ "retryInterval" _ f _)
    rw [c1, c2, c3, c4]
    omega

/-- Witness for C6: an http definition without url has exactly one url
field error, and a missing name is reported by index. -/
theorem validate_rules_witness :
    nameReqMsg 3 ∈ (validateMonitorConfig [("type", JVal.str "http")] 3).errors ∧
    (validateMonitorConfig [("type", JVal.str "http")] 3).errors.count
        (fieldReqMsg (displayField [("type", JVal.str "http")] "name") "url"
          (displayJVal (JVal.str "http"))) = 1 := by
  constructor
  · exact (validate_rules [("type", JVal.str "http")] 3).2.1 (Or.inl rfl)
  · have h := (validate_rules [("type", JVal.str "http")] 3).2.2.2.2
      (JVal.str "http") ["url"] rfl (by decide) "url" (by decide)
    rw [h]
    decide

/-! Field-map lemmas for the bean conversion. -/

theorem getField_append_of_some {a : Fields} (b : Fields) {k : String} {v : JVal}
    (h : getField a k = some v) : getField (a ++ b) k = some v := by
  induction a with
  | nil => exact absurd h (by simp [getField])
  | cons p rest ih =>
      rw [List.cons_append, getField]
      rw [getField] at h
      by_cases hp : p.1 = k
      · simpa [hp] using h
      · rw [if_neg hp] at h ⊢
        exact ih h

theorem getField_append_of_none {a : Fields} (b : Fields) {k : String}
    (h : getField a k = none) : getField (a ++ b) k = getField b k := by
  induction a with
  | nil => rfl
  | cons p rest ih =>
      rw [List.cons_append, getField]
      rw [getField] at h
      by_cases hp : p.1 = k
      · rw [if_pos hp] at h; exact Option.noConfusion h
      · rw [if_neg hp] at h ⊢
        exact ih h

theorem getField_filterKey_of_true {m : Fields} {q : String → Bool} {k : String}
    (hq : q k = true) : getField (m.filter (fun p => q p.1)) k = getField m k := by
  induction m with
  | nil => rfl
  | cons p rest ih =>
      rw [getField, List.filter_cons]
      by_cases hp : p.1 = k
      · rw [if_pos hp, hp, hq]
        simp [getField, hp]
      · rw [if_neg hp]
        by_cases hqp : q p.1
        · simp only [hqp, if_pos]
          rw [getField, if_neg hp]
          exact ih
        · simp only [hqp, Bool.false_eq_true, if_neg]
          exact ih

theorem getField_filterKey_of_false {m : Fields} {q : String → Bool} {k : String}
    (hq : q k = false) : getField (m.filter (fun p => q p.1)) k = none := by
  induction m with
  | nil => rfl
  | cons p rest ih =>
      rw [List.filter_cons]
      by_cases hp : p.1 = k
      · rw [hp, hq]
        simpa using ih
      · by_cases hqp : q p.1
        · simp only [hqp, if_pos]
          rw [getField, if_neg hp]
          exact ih
        · simp only [hqp, Bool.false_eq_true, if_neg]
          exact ih

theorem getField_filter_ne_self (m : Fields) (k : String) :
    getField (m.filter (fun p => p.1 != k)) k = none :=
  @getField_filterKey_of_false m (fun x => x != k) k (by simp)

theorem getField_filter_ne_other (m : Fields) (k k2 : String) (h : k2 ≠ k) :
    getField (m.filter (fun p => p.1 != k)) k2 = getField m k2 :=
  @getField_filterKey_of_true m (fun x => x != k) k2 (by simp [h])

theorem getField_setField_self (m : Fields) (k : String) (v : JVal) :
    getField (setField m k v) k = some v := by
  rw [setField, getField_append_of_none _ (getField_filter_ne_self m k)]
  simp [getField]

theorem getField_setField_ne (m : Fields) (k k2 : String) (v : JVal) (h : k2 ≠ k) :
    getField (setField m k v) k2 = getField m k2 := by
  rw [setField]
  cases hg : getField m k2 with
  | none =>
      rw [getField_append_of_none]
      · simp only [getField]
        rw [if_neg (fun hh : k = k2 => h hh.symm)]
      · rw [getField_filter_ne_other m k k2 h]; exact hg
  | some v2 =>
      refine getField_append_of_some _ ?_
      rw [getField_filter_ne_other m k k2 h]; exact hg

theorem getField_deleteField_self (m : Fields) (k : String) :
    getField (deleteField m k) k = none :=
  getField_filter_ne_self m k

theorem getField_deleteField_ne (m : Fields) (k k2 : String) (h : k2 ≠ k) :
    getField (deleteField m k) k2 = getField m k2 :=
  getField_filter_ne_other m k k2 h

theorem getField_spread_of_some {b : Fields} (a : Fields) {k : String} {v : JVal}
    (h : getField b k = some v) : getField (spreadFields a b) k = some v := by
  rw [spreadFields]
  have hq : (getField b k).isNone = false := by simp [h]
  rw [getField_append_of_none _
    (@getField_filterKey_of_false a (fun x => (getField b x).isNone) k hq)]
  exact h

theorem getField_spread_of_none {b : Fields} (a : Fields) {k : String}
    (h : getField b k = none) : getField (spreadFields a b) k = getField a k := by
  rw [spreadFields]
  have hq : (getField b k).isNone = true := by simp [h]
  cases hg : getField a k with
  | none =>
      rw [getField_append_of_none]
      · exact h
      · rw [@getField_filterKey_of_true a (fun x => (getField b x).isNone) k hq]
        exact hg
  | some v2 =>
      refine getField_append_of_some _ ?_
      rw [@getField_filterKey_of_true a (fun x => (getField b x).isNone) k hq]
      exact hg

theorem getField_applyJson_ne (m : Fields) (f k : String) (h : k ≠ f) :
    getField (applyJsonField m f) k = getField m k := by
  rw [applyJsonField]
  cases getField m f with
  | none => rfl
  | some v =>
      cases v with
      | str s => rfl
      | num n => exact getField_setField_ne m f k _ h
      | bool b => exact getField_setField_ne m f k _ h
      | null => exact getField_setField_ne m f k _ h
      | arr xs => exact getField_setField_ne m f k _ h
      | obj kvs => exact getField_setField_ne m f k _ h

theorem getField_applyStatuscodes_ne (m : Fields) (k : String)
    (h : k ≠ "accepted_statuscodes_json") :
    getField (applyStatuscodes m) k = getField m k := by
  rw [applyStatuscodes]
  split <;> first
    | rw [getField_setField_ne _ _ _ _ h]
    | rfl

/-- The keys whose declared value does not survive configToMonitorBean
verbatim: owner and managed flag are overwritten, accepted_statuscodes is
renamed, and the structured fields are serialized when not strings. -/
def overriddenKeys : List String :=
  ["user_id", "config_managed", "accepted_statuscodes", "accepted_statuscodes_json",
   "kafkaProducerBrokers", "kafkaProducerSaslOptions", "rabbitmqNodes", "conditions"]

theorem getField_configToMonitorBean_generic (config : Fields) (userId : Int) (k : String)
    (hk : k ∉ overriddenKeys) :
    getField (configToMonitorBean config userId) k
      = getField (spreadFields MONITOR_DEFAULTS config) k := by
  simp only [overriddenKeys, List.mem_cons, List.not_mem_nil, or_false, not_or] at hk
  obtain ⟨h1, h2, h3, h4, h5, h6, h7, h8⟩ := hk
  simp only [configToMonitorBean, jsonFields, List.foldl]
  rw [getField_setField_ne _ _ _ _ h2, getField_setField_ne _ _ _ _ h1,
    getField_applyJson_ne _ _ _ h8, getField_applyJson_ne _ _ _ h7,
    getField_applyJson_ne _ _ _ h6, getField_applyJson_ne _ _ _ h5,
    getField_deleteField_ne _ _ _ h3, getField_applyStatuscodes_ne _ _ h4]

theorem getField_applyJson_self_char (m : Fields) (f : String) :
    getField (applyJsonField m f) f
      = (match getField m f with
         | none => none
         | some (.str s) => some (.str s)
         | some v => some (.str (jsonStringify v))) := by
  rw [applyJsonField]
  cases hg : getField m f with
  | none => exact hg
  | some v =>
      cases v with
      | str s => exact hg
      | num n => exact getField_setField_self _ _ _
      | bool b => exact getField_setField_self _ _ _
      | null => exact getField_setField_self _ _ _
      | arr xs => exact getField_setField_self _ _ _
      | obj kvs => exact getField_setField_self _ _ _

theorem getField_configToMonitorBean_jsonField (config : Fields) (userId : Int)
    (k : String) (hk : k ∈ jsonFields) :
    getField (configToMonitorBean config userId) k
      = (match getField (spreadFields MONITOR_DEFAULTS config) k with
         | none => none
         | some (.str s) => some (.str s)
         | some v => some (.str (jsonStringify v))) := by
  have hne : ∀ k2 ∈ jsonFields, k2 ≠ "user_id" ∧ k2 ≠ "config_managed" ∧
      k2 ≠ "accepted_statuscodes" ∧ k2 ≠ "accepted_statuscodes_json" := by decide
  obtain ⟨n1, n2, n3, n4⟩ := hne k hk
  have hM : getField (deleteField (applyStatuscodes (spreadFields MONITOR_DEFAULTS config))
      "accepted_statuscodes") k = getField (spreadFields MONITOR_DEFAULTS config) k := by
    rw [getField_deleteField_ne _ _ _ n3, getField_applyStatuscodes_ne _ _ n4]
  simp only [configToMonitorBean, jsonFields, List.foldl]
  rw [getField_setField_ne _ _ _ _ n2, getField_setField_ne _ _ _ _ n1]
  simp only [jsonFields, List.mem_cons, List.not_mem_nil, or_false] at hk
  rcases hk with rfl | rfl | rfl | rfl
  · rw [getField_applyJson_ne _ _ _ (by decide), getField_applyJson_ne _ _ _ (by decide),
      getField_applyJson_ne _ _ _ (by decide), getField_applyJson_self_char, hM]
  · rw [getField_applyJson_ne _ _ _ (by decide), getField_applyJson_ne _ _ _ (by decide),
      getField_applyJson_self_char, getField_applyJson_ne _ _ _ (by decide), hM]
  · rw [getField_applyJson_ne _ _ _ (by decide), getField_applyJson_self_char,
      getField_applyJson_ne _ _ _ (by decide), getField_applyJson_ne _ _ _ (by decide), hM]
  · rw [getField_applyJson_self_char, getField_applyJson_ne _ _ _ (by decide),
      getField_applyJson_ne _ _ _ (by decide), getField_applyJson_ne _ _ _ (by decide), hM]

/-- C5 counterexample: the definition declaring user_id 5 with owner 1 does
not keep its declared user_id in the output, refuting that every declared
field appears with its declared value. -/
theorem configToMonitorBean_counterexample :
    ¬ (getField (configToMonitorBean [("user_id", JVal.num 5)] 1) "user_id"
        = some (JVal.num 5)) := by decide

/-- C5 (amended): configToMonitorBean is a pure merge in which every
declared field outside the overwritten keys (user_id, config_managed, the
renamed accepted_statuscodes pair, and the serialized structured fields)
appears with its declared value, absent common-optional fields take their
documented defaults, user_id is the owner, config_managed is true, the
structured fields are JSON-serialized exactly when not already strings, and
accepted_statuscodes materializes as accepted_statuscodes_json (serialized
from an array, copied from a string, defaulted otherwise) while the
original key is deleted. -/
theorem configToMonitorBean_spec (config : Fields) (userId : Int) :
    (∀ k v, getField config k = some v → k ∉ overriddenKeys →
      getField (configToMonitorBean config userId) k = some v) ∧
    (∀ k v, getField MONITOR_DEFAULTS k = some v → getField config k = none →
      k ∉ overriddenKeys →
      getField (configToMonitorBean config userId) k = some v) ∧
    getField (configToMonitorBean config userId) "user_id" = some (.num userId) ∧
    getField (configToMonitorBean config userId) "config_managed" = some (.bool true) ∧
    (∀ k, k ∈ jsonFields →
      (∀ s, getField config k = some (.str s) →
        getField (configToMonitorBean config userId) k = some (.str s)) ∧
      (∀ v, getField config k = some v → (∀ s, v ≠ .str s) →
        getField (configToMonitorBean config userId) k
          = some (.str (jsonStringify v))) ∧
      (getField config k = none →
        getField (configToMonitorBean config userId) k = getField MONITOR_DEFAULTS k)) ∧
    (∀ xs, getField config "accepted_statuscodes" = some (.arr xs) →
      getField (configToMonitorBean config userId) "accepted_statuscodes_json"
        = some (.str (jsonStringify (.arr xs)))) ∧
    (∀ s, getField config "accepted_statuscodes" = some (.str s) →
      getField (configToMonitorBean config userId) "accepted_statuscodes_json"
        = some (.str s)) ∧
    (getField config "accepted_statuscodes" = none →
      getField (configToMonitorBean config userId) "accepted_statuscodes_json"
        = some (.str "[\"200-299\"]")) ∧
    getField (configToMonitorBean config userId) "accepted_statuscodes" = none := by
  have hjson : getField (configToMonitorBean config userId) "accepted_statuscodes_json"
      = getField (applyStatuscodes (spreadFields MONITOR_DEFAULTS config))
          "accepted_statuscodes_json" := by
    simp only [configToMonitorBean, jsonFields, List.foldl]
    rw [getField_setField_ne _ _ _ _ (by decide), getField_setField_ne _ _ _ _ (by decide),
      getField_applyJson_ne _ _ _ (by decide), getField_applyJson_ne _ _ _ (by decide),
      getField_applyJson_ne _ _ _ (by decide), getField_applyJson_ne _ _ _ (by decide),
      getField_deleteField_ne _ _ _ (by decide)]
  refine ⟨?_, ?_, ?_, ?_, ?_, ?_, ?_, ?_, ?_⟩
  · intro k v hv hk
    rw [getField_configToMonitorBean_generic config userId k hk]
    exact getField_spread_of_some _ hv
  · intro k v hd hnone hk
    rw [getField_configToMonitorBean_generic config userId k hk,
      getField_spread_of_none _ hnone]
    exact hd
  · simp only [configToMonitorBean]
    rw [getField_setField_ne _ _ _ _ (by decide)]
    exact getField_setField_self _ _ _
  · simp only [configToMonitorBean]
    exact getField_setField_self _ _ _
  · intro k hk
    refine ⟨?_, ?_, ?_⟩
    · intro s hs
      rw [getField_configToMonitorBean_jsonField config userId k hk,
        getField_spread_of_some _ hs]
    · intro v hv hvs
      rw [getField_configToMonitorBean_jsonField config userId k hk,
        getField_spread_of_some _ hv]
      cases v with
      | str s => exact absurd rfl (hvs s)
      | num n => rfl
      | bool b => rfl
      | null => rfl
      | arr xs => rfl
      | obj kvs => rfl
    · intro hnone
      rw [getField_configToMonitorBean_jsonField config userId k hk,
        getField_spread_of_none _ hnone]
      simp only [jsonFields, List.mem_cons, List.not_mem_nil, or_false] at hk
      rcases hk with rfl | rfl | rfl | rfl <;> rfl
  · intro xs hxs
    rw [hjson, applyStatuscodes, getField_spread_of_some _ hxs]
    exact getField_setField_self _ _ _
  · intro s hs
    rw [hjson, applyStatuscodes, getField_spread_of_some _ hs]
    exact getField_setField_self _ _ _
  · intro hnone
    rw [hjson, applyStatuscodes, getField_spread_of_none _ hnone]
    rw [show getField MONITOR_DEFAULTS "accepted_statuscodes"
        = some (JVal.arr [JVal.str "200-299"]) from rfl]
    rw [getField_setField_self]
    decide
  · simp only [configToMonitorBean, jsonFields, List.foldl]
    rw [getField_setField_ne _ _ _ _ (by decide), getField_setField_ne _ _ _ _ (by decide),
      getField_applyJson_ne _ _ _ (by decide), getField_applyJson_ne _ _ _ (by decide),
      getField_applyJson_ne _ _ _ (by decide), getField_applyJson_ne _ _ _ (by decide)]
    exact getField_deleteField_self _ _

/-- Witness for C5 (amended) at a concrete definition: a declared plain
field survives and a declared array condition list is serialized. -/
theorem configToMonitorBean_spec_witness :
    getField (configToMonitorBean
        [("name", JVal.str "A"), ("conditions", JVal.arr [])] 7) "name"
      = some (JVal.str "A") ∧
    getField (configToMonitorBean
        [("name", JVal.str "A"), ("conditions", JVal.arr [])] 7) "conditions"
      = some (JVal.str "[]") := by
  constructor
  · exact (configToMonitorBean_spec
      [("name", JVal.str "A"), ("conditions", JVal.arr [])] 7).1 "name" _ rfl (by decide)
  · have h := (((configToMonitorBean_spec
      [("name", JVal.str "A"), ("conditions", JVal.arr [])] 7).2.2.2.2.1 "conditions"
        (by decide)).2.1 (JVal.arr []) rfl (fun s hs => JVal.noConfusion hs))
    rw [h]
    decide

/-- The bean as persisted by one iteration (with its assigned id). -/
def storedBean (userId : Int) (cfg : Fields) (st : ServerState) : Bean :=
  (storeBean st (processedBean userId cfg st)).1

theorem storeBean_monitorList (st : ServerState) (b : Bean) :
    (storeBean st b).2.monitorList = st.monitorList := by
  rw [storeBean]
  split <;> rfl

theorem processOne_fail (userId : Int) (msg : String) (cfg : Fields) (s : SyncState) :
    processOne userId (some msg) cfg s
      = { s with result := { s.result with errors :=
            s.result.errors ++ [processErrMsg (displayField cfg "name") msg] } } := rfl

theorem processOne_ok_inactive (userId : Int) (cfg : Fields) (s : SyncState)
    (h : jsTruthy (getField (storedBean userId cfg s.st).fields "active") = false) :
    processOne userId none cfg s
      = { st := (storeBean s.st (processedBean userId cfg s.st)).2,
          result := if (processedBean userId cfg s.st).id = 0
            then { s.result with added := s.result.added + 1 }
            else { s.result with updated := s.result.updated + 1 },
          trace := s.trace ++ [Event.beanStored (storedBean userId cfg s.st).id] } := by
  rw [storedBean] at h
  simp only [processOne, h, Bool.false_eq_true, if_false]
  split <;> rfl

theorem processOne_ok_active_mem (userId : Int) (cfg : Fields) (s : SyncState)
    (h : jsTruthy (getField (storedBean userId cfg s.st).fields "active") = true)
    (hm : (storedBean userId cfg s.st).id ∈ s.st.monitorList) :
    processOne userId none cfg s
      = { st := (storeBean s.st (processedBean userId cfg s.st)).2,
          result := if (processedBean userId cfg s.st).id = 0
            then { s.result with added := s.result.added + 1 }
            else { s.result with updated := s.result.updated + 1 },
          trace := s.trace ++
            [Event.beanStored (storedBean userId cfg s.st).id,
             Event.taskStopped (storedBean userId cfg s.st).id,
             Event.taskStarted (storedBean userId cfg s.st).id] } := by
  have hc : (storeBean s.st (processedBean userId cfg s.st)).2.monitorList.contains
      (storedBean userId cfg s.st).id = true := by
    rw [storeBean_monitorList]
    simpa using hm
  have hins : listInsert (storeBean s.st (processedBean userId cfg s.st)).2.monitorList
      (storedBean userId cfg s.st).id
      = (storeBean s.st (processedBean userId cfg s.st)).2.monitorList := by
    rw [listInsert, hc]
    simp
  rw [storedBean] at h hc hins
  simp only [processOne, h, hc, hins]
  split <;> first
    | (simp [storedBean, List.append_assoc]; done)
    | simp_all

theorem processOne_ok_active_notmem (userId : Int) (cfg : Fields) (s : SyncState)
    (h : jsTruthy (getField (storedBean userId cfg s.st).fields "active") = true)
    (hm : (storedBean userId cfg s.st).id ∉ s.st.monitorList) :
    processOne userId none cfg s
      = { st := { (storeBean s.st (processedBean userId cfg s.st)).2 with
            monitorList := (storeBean s.st (processedBean userId cfg s.st)).2.monitorList
              ++ [(storedBean userId cfg s.st).id] },
          result := if (processedBean userId cfg s.st).id = 0
            then { s.result with added := s.result.added + 1 }
            else { s.result with updated := s.result.updated + 1 },
          trace := s.trace ++
            [Event.beanStored (storedBean userId cfg s.st).id,
             Event.taskStarted (storedBean userId cfg s.st).id] } := by
  have hc : (storeBean s.st (processedBean userId cfg s.st)).2.monitorList.contains
      (storedBean userId cfg s.st).id = false := by
    rw [storeBean_monitorList]
    simpa using hm
  have hins : listInsert (storeBean s.st (processedBean userId cfg s.st)).2.monitorList
      (storedBean userId cfg s.st).id
      = (storeBean s.st (processedBean userId cfg s.st)).2.monitorList
          ++ [(storedBean userId cfg s.st).id] := by
    rw [listInsert, hc]
    simp
  rw [storedBean] at h hc hins
  simp only [processOne, h, hc, hins]
  split <;> first
    | (simp [storedBean, List.append_assoc]; done)
    | simp_all

/-! Live-task accounting over the event trace. -/

/-- Effect of one event on the number of running tasks of one identity. -/
def traceStep (id : Nat) (acc : Int) (e : Event) : Int :=
  match e with
  | .taskStarted j => if j = id then acc + 1 else acc
  | .taskStopped j => if j = id then acc - 1 else acc
  | _ => acc

/-- Net number of tasks of an identity started minus stopped by a trace. -/
def traceDelta (t : List Event) (id : Nat) : Int :=
  t.foldl (traceStep id) 0

/-- Number of live tasks of an identity after a trace, when every entry of
the initial registry owns exactly one running task. -/
def runningCount (init : List Nat) (t : List Event) (id : Nat) : Int :=
  (if id ∈ init then 1 else 0) + traceDelta t id

/-- The trace keeps the registry exact: an identity has one running task
exactly when it is registered. -/
def tracksRegistry (init : List Nat) (t : List Event) (l : List Nat) : Prop :=
  ∀ id, runningCount init t id = if id ∈ l then 1 else 0

/-- At every instant of the trace, at most one task runs per identity. -/
def boundedTrace (init : List Nat) (t : List Event) : Prop :=
  ∀ n id, runningCount init (t.take n) id ≤ 1

theorem traceStep_shift (id : Nat) (acc : Int) (e : Event) :
    traceStep id acc e = acc + traceStep id 0 e := by
  cases e with
  | taskStarted j => simp only [traceStep]; split <;> omega
  | taskStopped j => simp only [traceStep]; split <;> omega
  | beanStored j => simp only [traceStep]; omega
  | beanTrashed j => simp only [traceStep]; omega

theorem foldl_traceStep_shift (id : Nat) (t : List Event) :
    ∀ acc, t.foldl (traceStep id) acc = acc + t.foldl (traceStep id) 0 := by
  induction t with
  | nil => intro acc; simp
  | cons e t ih =>
      intro acc
      rw [List.foldl_cons, List.foldl_cons, ih (traceStep id acc e),
        ih (traceStep id 0 e), traceStep_shift]
      omega

theorem traceDelta_append (t u : List Event) (id : Nat) :
    traceDelta (t ++ u) id = traceDelta t id + traceDelta u id := by
  rw [traceDelta, List.foldl_append, foldl_traceStep_shift]
  rfl

theorem runningCount_append (init : List Nat) (t u : List Event) (id : Nat) :
    runningCount init (t ++ u) id = runningCount init t id + traceDelta u id := by
  rw [runningCount, traceDelta_append, runningCount]
  omega

theorem tracks_append (init : List Nat) (t es : List Event) (l l2 : List Nat)
    (htr : tracksRegistry init t l)
    (hd : ∀ j, ((if j ∈ l then (1 : Int) else 0) + traceDelta es j)
      = (if j ∈ l2 then 1 else 0)) :
    tracksRegistry init (t ++ es) l2 := by
  intro j
  rw [runningCount_append, htr j, hd j]

theorem bounded_append (init : List Nat) (t es : List Event) (l : List Nat)
    (htr : tracksRegistry init t l) (hb : boundedTrace init t)
    (hes : ∀ m j, ((if j ∈ l then (1 : Int) else 0) + traceDelta (es.take m) j) ≤ 1) :
    boundedTrace init (t ++ es) := by
  intro n j
  rw [List.take_append_eq_append_take, runningCount_append]
  by_cases hn : n ≤ t.length
  · have h0 : n - t.length = 0 := Nat.sub_eq_zero_of_le hn
    have hz : traceDelta (es.take 0) j = 0 := rfl
    rw [h0, hz]
    have := hb n j
    omega
  · rw [List.take_of_length_le (Nat.le_of_lt (Nat.lt_of_not_le hn)), htr j]
    exact hes _ j

theorem indicator_le_one (l : List Nat) (j : Nat) : (if j ∈ l then (1 : Int) else 0) ≤ 1 := by
  split <;> omega

theorem processOne_tracks_bounded (init : List Nat) (userId : Int) (sf : Option String)
    (cfg : Fields) (s : SyncState)
    (htr : tracksRegistry init s.trace s.st.monitorList)
    (hb : boundedTrace init s.trace) :
    tracksRegistry init (processOne userId sf cfg s).trace
        (processOne userId sf cfg s).st.monitorList ∧
    boundedTrace init (processOne userId sf cfg s).trace := by
  cases sf with
  | some msg =>
      rw [processOne_fail]
      exact ⟨htr, hb⟩
  | none =>
      have hml : (storeBean s.st (processedBean userId cfg s.st)).2.monitorList
          = s.st.monitorList := storeBean_monitorList _ _
      by_cases hact : jsTruthy (getField (storedBean userId cfg s.st).fields "active") = true
      · by_cases hmem : (storedBean userId cfg s.st).id ∈ s.st.monitorList
        · rw [processOne_ok_active_mem userId cfg s hact hmem]
          simp only [hml]
          constructor
          · refine tracks_append init s.trace _ _ _ htr (fun j => ?_)
            by_cases hj : (storedBean userId cfg s.st).id = j <;>
              simp [traceDelta, traceStep, List.foldl, hj]
          · refine bounded_append init s.trace _ _ htr hb (fun m j => ?_)
            have hj1 : (if j ∈ s.st.monitorList then (1 : Int) else 0) ≤ 1 :=
              indicator_le_one _ _
            rcases m with _ | _ | _ | m <;>
              [skip;
               skip;
               (by_cases hj : (storedBean userId cfg s.st).id = j);
               (by_cases hj : (storedBean userId cfg s.st).id = j)] <;>
              simp [traceDelta, traceStep, List.foldl, List.take, *] <;> omega
        · rw [processOne_ok_active_notmem userId cfg s hact hmem]
          simp only [hml]
          constructor
          · refine tracks_append init s.trace _ _ _ htr (fun j => ?_)
            by_cases hj : (storedBean userId cfg s.st).id = j
            · subst hj
              simp [traceDelta, traceStep, List.foldl, hmem]
            · have hj2 : j ≠ (storedBean userId cfg s.st).id := fun h => hj h.symm
              simp [traceDelta, traceStep, List.foldl, hj, hj2, List.mem_append]
          · refine bounded_append init s.trace _ _ htr hb (fun m j => ?_)
            have hj1 : (if j ∈ s.st.monitorList then (1 : Int) else 0) ≤ 1 :=
              indicator_le_one _ _
            rcases m with _ | _ | m <;>
              [skip;
               skip;
               (by_cases hj : (storedBean userId cfg s.st).id = j)] <;>
              simp [traceDelta, traceStep, List.foldl, List.take, *] <;> try omega
            · subst hj
              simp [hmem]
      · have hact2 : jsTruthy (getField (storedBean userId cfg s.st).fields "active") = false := by
          revert hact
          cases jsTruthy (getField (storedBean userId cfg s.st).fields "active") <;> simp
        rw [processOne_ok_inactive userId cfg s hact2]
        simp only [hml]
        constructor
        · refine tracks_append init s.trace _ _ _ htr (fun j => ?_)
          simp [traceDelta, traceStep, List.foldl]
        · refine bounded_append init s.trace _ _ htr hb (fun m j => ?_)
          have hj1 : (if j ∈ s.st.monitorList then (1 : Int) else 0) ≤ 1 :=
            indicator_le_one _ _
          rcases m with _ | m <;>
            simp [traceDelta, traceStep, List.foldl, List.take] <;> omega

theorem removeOne_tracks_bounded (init : List Nat) (decl : List (Option JVal))
    (tf : Option String) (eb : Bean) (s : SyncState)
    (htr : tracksRegistry init s.trace s.st.monitorList)
    (hb : boundedTrace init s.trace) :
    tracksRegistry init (removeOne decl tf eb s).trace
        (removeOne decl tf eb s).st.monitorList ∧
    boundedTrace init (removeOne decl tf eb s).trace := by
  by_cases hm : getField eb.fields "name" ∈ decl
  · rw [removeOne_skip decl tf eb s hm]
    exact ⟨htr, hb⟩
  · have hml := removeOne_target_monitorList decl tf eb s hm
    have htrc := removeOne_target_trace decl tf eb s hm
    rw [htrc, hml]
    constructor
    · refine tracks_append init s.trace _ _ _ htr (fun j => ?_)
      by_cases hj : eb.id = j
      · subst hj
        by_cases hmem : eb.id ∈ s.st.monitorList <;> cases tf <;>
          simp [traceDelta, traceStep, List.foldl, hmem, List.mem_filter] <;> try omega
      · have hj2 : j ≠ eb.id := fun h => hj h.symm
        by_cases hmem : eb.id ∈ s.st.monitorList <;> cases tf <;>
          simp [traceDelta, traceStep, List.foldl, hj, hj2, hmem, List.mem_filter] <;>
          try omega
    · refine bounded_append init s.trace _ _ htr hb (fun m j => ?_)
      have hj1 := indicator_le_one s.st.monitorList j
      by_cases hj : eb.id = j
      · subst hj
        by_cases hmem : eb.id ∈ s.st.monitorList <;> cases tf <;>
          rcases m with _ | _ | m <;>
          simp [traceDelta, traceStep, List.foldl, List.take, hmem] <;> try omega
      · have hj2 : j ≠ eb.id := fun h => hj h.symm
        by_cases hmem : eb.id ∈ s.st.monitorList <;> cases tf <;>
          rcases m with _ | _ | m <;>
          simp [traceDelta, traceStep, List.foldl, List.take, hmem, hj, hj2] <;>
          first
            | omega
            | exact hj1
            | (split <;> omega)

theorem processList_tracks_bounded (init : List Nat) (userId : Int)
    (sf : Nat → Option String) (monitors : List Fields) : ∀ (i : Nat) (s : SyncState),
    tracksRegistry init s.trace s.st.monitorList → boundedTrace init s.trace →
    tracksRegistry init (processList userId sf monitors i s).trace
        (processList userId sf monitors i s).st.monitorList ∧
    boundedTrace init (processList userId sf monitors i s).trace := by
  induction monitors with
  | nil => intro i s h1 h2; exact ⟨h1, h2⟩
  | cons cfg rest ih =>
      intro i s h1 h2
      rw [processList]
      obtain ⟨h3, h4⟩ := processOne_tracks_bounded init userId (sf i) cfg s h1 h2
      exact ih (i + 1) _ h3 h4

theorem removeList_tracks_bounded (init : List Nat) (decl : List (Option JVal))
    (tf : Nat → Option String) (ebs : List Bean) : ∀ (s : SyncState),
    tracksRegistry init s.trace s.st.monitorList → boundedTrace init s.trace →
    tracksRegistry init (removeList decl tf ebs s).trace
        (removeList decl tf ebs s).st.monitorList ∧
    boundedTrace init (removeList decl tf ebs s).trace := by
  induction ebs with
  | nil => intro s h1 h2; exact ⟨h1, h2⟩
  | cons eb rest ih =>
      intro s h1 h2
      rw [removeList]
      obtain ⟨h3, h4⟩ := removeOne_tracks_bounded init decl (tf eb.id) eb s h1 h2
      exact ih _ h3 h4

theorem boundedTrace_nil (init : List Nat) : boundedTrace init [] := by
  intro n id
  simp only [List.take_nil, runningCount]
  have hz : traceDelta [] id = 0 := rfl
  have := indicator_le_one init id
  omega

theorem tracksRegistry_nil (init : List Nat) : tracksRegistry init [] init := by
  intro id
  simp only [runningCount]
  have hz : traceDelta [] id = 0 := rfl
  omega

/-- C8: a stored record whose active flag is falsy receives no live task —
its iteration emits only the store event and leaves the registry unchanged;
an active record has any existing task under its identity stopped before
the single new task is registered and started; and along the whole trace of
syncConfigMonitors every identity has at most one running task at every
instant (counting each initially registered identity as one running task). -/
theorem sync_task_lifecycle :
    (∀ (userId : Int) (cfg : Fields) (s : SyncState),
      jsTruthy (getField (storedBean userId cfg s.st).fields "active") = false →
      (processOne userId none cfg s).trace
          = s.trace ++ [Event.beanStored (storedBean userId cfg s.st).id] ∧
      (processOne userId none cfg s).st.monitorList = s.st.monitorList) ∧
    (∀ (userId : Int) (cfg : Fields) (s : SyncState),
      jsTruthy (getField (storedBean userId cfg s.st).fields "active") = true →
      (processOne userId none cfg s).trace
          = s.trace ++ [Event.beanStored (storedBean userId cfg s.st).id]
            ++ (if (storedBean userId cfg s.st).id ∈ s.st.monitorList
                then [Event.taskStopped (storedBean userId cfg s.st).id] else [])
            ++ [Event.taskStarted (storedBean userId cfg s.st).id]) ∧
    (∀ (userId : Int) (path : Option String) (fileSt : FileState)
        (sf tf : Nat → Option String) (st : ServerState),
      boundedTrace st.monitorList (syncConfigMonitors userId path fileSt sf tf st).2.2) := by
  refine ⟨?_, ?_, ?_⟩
  · intro userId cfg s h
    rw [processOne_ok_inactive userId cfg s h]
    exact ⟨rfl, storeBean_monitorList _ _⟩
  · intro userId cfg s h
    by_cases hmem : (storedBean userId cfg s.st).id ∈ s.st.monitorList
    · rw [processOne_ok_active_mem userId cfg s h hmem, if_pos hmem]
      simp [List.append_assoc]
    · rw [processOne_ok_active_notmem userId cfg s h hmem, if_neg hmem]
      simp [List.append_assoc]
  · intro userId path fileSt sf tf st
    cases hrd : readConfigFile path fileSt with
    | none =>
        simp only [syncConfigMonitors, hrd]
        exact boundedTrace_nil _
    | some monitors =>
        simp only [syncConfigMonitors, hrd]
        by_cases herr : (validateAll monitors 0).length > 0
        · rw [if_pos herr]
          exact boundedTrace_nil _
        · rw [if_neg herr]
          obtain ⟨ht1, hb1⟩ := processList_tracks_bounded st.monitorList userId sf monitors 0
            { st := st, result := zeroSyncResult, trace := [] }
            (tracksRegistry_nil _) (boundedTrace_nil _)
          exact (removeList_tracks_bounded st.monitorList _ tf _ _ ht1 hb1).2

/-- Witness for C8: a push monitor (active by default) on an empty state
stores then starts its task with no stop event. -/
theorem sync_task_lifecycle_witness :
    (processOne 1 none [("name", JVal.str "A"), ("type", JVal.str "push")]
        { st := { beans := [], nextId := 1, monitorList := [] },
          result := zeroSyncResult, trace := [] }).trace
      = [Event.beanStored 1, Event.taskStarted 1] := by
  have h := sync_task_lifecycle.2.1 1 [("name", JVal.str "A"), ("type", JVal.str "push")]
    { st := { beans := [], nextId := 1, monitorList := [] },
      result := zeroSyncResult, trace := [] } (by decide)
  rw [h]
  decide

/-! Infrastructure for the idempotence theorem. -/

/-- Well-formed owning-process state: ids are positive, below the counter,
and distinct. -/
def WFState (st : ServerState) : Prop :=
  1 ≤ st.nextId ∧ (∀ b ∈ st.beans, 1 ≤ b.id ∧ b.id < st.nextId) ∧
  (st.beans.map Bean.id).Nodup

/-- A declared name has a managed record in the store. -/
def hasMatch (userId : Int) (nm : Option JVal) (beans : List Bean) : Prop :=
  ∃ b, b ∈ beans ∧ matchesManagedName userId nm b = true

theorem getField_ctmb_user_id (cfg : Fields) (u : Int) :
    getField (configToMonitorBean cfg u) "user_id" = some (.num u) := by
  simp only [configToMonitorBean]
  rw [getField_setField_ne _ _ _ _ (by decide)]
  exact getField_setField_self _ _ _

theorem getField_ctmb_config_managed (cfg : Fields) (u : Int) :
    getField (configToMonitorBean cfg u) "config_managed" = some (.bool true) := by
  simp only [configToMonitorBean]
  exact getField_setField_self _ _ _

theorem getField_ctmb_name (cfg : Fields) (u : Int) (nv : JVal)
    (hname : getField cfg "name" = some nv) :
    getField (configToMonitorBean cfg u) "name" = some nv := by
  rw [getField_configToMonitorBean_generic cfg u "name" (by decide)]
  exact getField_spread_of_some _ hname

theorem getField_importFields_of_some (bf md : Fields) (k : String) (v : JVal)
    (hk : k ≠ "id") (h : getField md k = some v) :
    getField (importFields bf md) k = some v := by
  rw [importFields]
  refine getField_append_of_some _ ?_
  rw [@getField_filterKey_of_true md (fun x => x != "id") k (by simp [hk])]
  exact h

theorem storeBean_fst_fields (st : ServerState) (b : Bean) :
    (storeBean st b).1.fields = b.fields := by
  rw [storeBean]
  split <;> rfl

theorem processedBean_id (userId : Int) (cfg : Fields) (st : ServerState) :
    (processedBean userId cfg st).id
      = (findOrCreateMonitor userId (getField cfg "name") st.beans).id := rfl

theorem processedBean_key_fields (userId : Int) (cfg : Fields) (st : ServerState)
    (nv : JVal) (hname : getField cfg "name" = some nv) :
    getField (processedBean userId cfg st).fields "name" = some nv ∧
    getField (processedBean userId cfg st).fields "user_id" = some (.num userId) ∧
    getField (processedBean userId cfg st).fields "config_managed" = some (.bool true) := by
  refine ⟨?_, ?_, ?_⟩
  · exact getField_importFields_of_some _ _ _ _ (by decide)
      (getField_ctmb_name cfg userId nv hname)
  · exact getField_importFields_of_some _ _ _ _ (by decide)
      (getField_ctmb_user_id cfg userId)
  · exact getField_importFields_of_some _ _ _ _ (by decide)
      (getField_ctmb_config_managed cfg userId)

theorem processedBean_matches (userId : Int) (cfg : Fields) (st : ServerState)
    (nv : JVal) (hname : getField cfg "name" = some nv) :
    matchesManagedName userId (getField cfg "name") (processedBean userId cfg st) = true := by
  obtain ⟨h1, h2, h3⟩ := processedBean_key_fields userId cfg st nv hname
  rw [matchesManagedName, hname, h1, h2, h3]
  simp

theorem findOrCreateMonitor_spec (userId : Int) (nm : Option JVal) (beans : List Bean) :
    (findOrCreateMonitor userId nm beans).id = 0 ∨
    (findOrCreateMonitor userId nm beans ∈ beans ∧
      matchesManagedName userId nm (findOrCreateMonitor userId nm beans) = true) := by
  rw [findOrCreateMonitor]
  cases hf : beans.find? (matchesManagedName userId nm) with
  | none => exact Or.inl rfl
  | some x => exact Or.inr ⟨List.mem_of_find?_eq_some hf, List.find?_some hf⟩

theorem findOrCreateMonitor_of_hasMatch (userId : Int) (nm : Option JVal)
    (beans : List Bean) (h : hasMatch userId nm beans) :
    findOrCreateMonitor userId nm beans ∈ beans ∧
    matchesManagedName userId nm (findOrCreateMonitor userId nm beans) = true := by
  obtain ⟨b, hb, hm⟩ := h
  have hs : (beans.find? (matchesManagedName userId nm)).isSome :=
    List.find?_isSome.mpr ⟨b, hb, hm⟩
  rw [findOrCreateMonitor]
  cases hf : beans.find? (matchesManagedName userId nm) with
  | none => rw [hf] at hs; exact absurd hs (by simp)
  | some x => exact ⟨List.mem_of_find?_eq_some hf, List.find?_some hf⟩

theorem processOne_ok_st_beans (userId : Int) (cfg : Fields) (s : SyncState) :
    (processOne userId none cfg s).st.beans
      = (storeBean s.st (processedBean userId cfg s.st)).2.beans ∧
    (processOne userId none cfg s).st.nextId
      = (storeBean s.st (processedBean userId cfg s.st)).2.nextId := by
  by_cases hact : jsTruthy (getField (storedBean userId cfg s.st).fields "active") = true
  · by_cases hmem : (storedBean userId cfg s.st).id ∈ s.st.monitorList
    · rw [processOne_ok_active_mem userId cfg s hact hmem]
      exact ⟨rfl, rfl⟩
    · rw [processOne_ok_active_notmem userId cfg s hact hmem]
      exact ⟨rfl, rfl⟩
  · have hact2 : jsTruthy (getField (storedBean userId cfg s.st).fields "active") = false := by
      revert hact
      cases jsTruthy (getField (storedBean userId cfg s.st).fields "active") <;> simp
    rw [processOne_ok_inactive userId cfg s hact2]
    exact ⟨rfl, rfl⟩

theorem processOne_ok_added (userId : Int) (cfg : Fields) (s : SyncState) :
    (processOne userId none cfg s).result.added
      = (if (processedBean userId cfg s.st).id = 0
          then s.result.added + 1 else s.result.added) := by
  by_cases hact : jsTruthy (getField (storedBean userId cfg s.st).fields "active") = true
  · by_cases hmem : (storedBean userId cfg s.st).id ∈ s.st.monitorList
    · rw [processOne_ok_active_mem userId cfg s hact hmem]
      split <;> rfl
    · rw [processOne_ok_active_notmem userId cfg s hact hmem]
      split <;> rfl
  · have hact2 : jsTruthy (getField (storedBean userId cfg s.st).fields "active") = false := by
      revert hact
      cases jsTruthy (getField (storedBean userId cfg s.st).fields "active") <;> simp
    rw [processOne_ok_inactive userId cfg s hact2]
    split <;> rfl

theorem matches_name_eq (u : Int) (nm : Option JVal) (b : Bean)
    (h : matchesManagedName u nm b = true) : getField b.fields "name" = nm := by
  rw [matchesManagedName, Bool.and_assoc] at h
  exact eq_of_beq (Bool.and_eq_true_iff.mp h).1

theorem nodup_id_inj (beans : List Bean) (h : (beans.map Bean.id).Nodup)
    {a b : Bean} (ha : a ∈ beans) (hb : b ∈ beans) (hid : a.id = b.id) : a = b :=
  List.inj_on_of_nodup_map h ha hb hid

theorem storeBean_new (st : ServerState) (b : Bean) (hid : b.id = 0) :
    storeBean st b = ({ b with id := st.nextId },
      { st with
        beans := st.beans ++ [{ b with id := st.nextId }]
        nextId := st.nextId + 1 }) := by
  rw [storeBean, if_pos hid]

theorem storeBean_update (st : ServerState) (b : Bean) (hid : b.id ≠ 0) :
    storeBean st b = (b,
      { st with
        beans := st.beans.map (fun x => if x.id = b.id then b else x) }) := by
  rw [storeBean, if_neg hid]

theorem processOne_store_step (userId : Int) (cfg : Fields) (s : SyncState)
    (nv : JVal) (hname : getField cfg "name" = some nv) (hwf : WFState s.st) :
    WFState (processOne userId none cfg s).st ∧
    hasMatch userId (getField cfg "name") (processOne userId none cfg s).st.beans ∧
    (∀ nm, hasMatch userId nm s.st.beans →
      hasMatch userId nm (processOne userId none cfg s).st.beans) ∧
    (∀ b2, b2 ∈ (processOne userId none cfg s).st.beans →
      b2 ∈ s.st.beans ∨ matchesManagedName userId (getField cfg "name") b2 = true) ∧
    (∀ b0, b0 ∈ s.st.beans →
      b0 ∈ (processOne userId none cfg s).st.beans ∨
      getField b0.fields "name" = getField cfg "name") := by
  obtain ⟨hwf1, hwf2, hwf3⟩ := hwf
  obtain ⟨hbeq, hneq⟩ := processOne_ok_st_beans userId cfg s
  by_cases hid : (processedBean userId cfg s.st).id = 0
  · -- a fresh bean is appended under the next free id
    rw [storeBean_new s.st _ hid] at hbeq hneq
    have hnewfields : ({ processedBean userId cfg s.st with id := s.st.nextId } : Bean).fields
        = (processedBean userId cfg s.st).fields := rfl
    refine ⟨⟨?_, ?_, ?_⟩, ?_, ?_, ?_, ?_⟩
    · rw [hneq]
      show 1 ≤ s.st.nextId + 1
      omega
    · rw [hbeq, hneq]
      intro b hb
      rcases List.mem_append.mp hb with hb | hb
      · have := hwf2 b hb
        show 1 ≤ b.id ∧ b.id < s.st.nextId + 1
        omega
      · rw [List.mem_singleton.mp hb]
        show 1 ≤ s.st.nextId ∧ s.st.nextId < s.st.nextId + 1
        omega
    · rw [hbeq, List.map_append, List.nodup_append]
      refine ⟨hwf3, by simp, ?_⟩
      intro j hj
      simp only [List.map_cons, List.map_nil, List.mem_singleton]
      obtain ⟨b, hb, hbid⟩ := List.mem_map.mp hj
      have := hwf2 b hb
      intro hEq
      rw [← hbid] at hEq
      omega
    · rw [hbeq]
      refine ⟨{ processedBean userId cfg s.st with id := s.st.nextId }, ?_, ?_⟩
      · exact List.mem_append_right _ (List.mem_singleton.mpr rfl)
      · rw [show matchesManagedName userId (getField cfg "name")
            { processedBean userId cfg s.st with id := s.st.nextId }
            = matchesManagedName userId (getField cfg "name")
              (processedBean userId cfg s.st) from rfl]
        exact processedBean_matches userId cfg s.st nv hname
    · intro nm hm
      obtain ⟨b, hb, hmb⟩ := hm
      rw [hbeq]
      exact ⟨b, List.mem_append_left _ hb, hmb⟩
    · intro b2 hb2
      rw [hbeq] at hb2
      rcases List.mem_append.mp hb2 with hb2 | hb2
      · exact Or.inl hb2
      · rw [List.mem_singleton.mp hb2]
        refine Or.inr ?_
        rw [show matchesManagedName userId (getField cfg "name")
            { processedBean userId cfg s.st with id := s.st.nextId }
            = matchesManagedName userId (getField cfg "name")
              (processedBean userId cfg s.st) from rfl]
        exact processedBean_matches userId cfg s.st nv hname
    · intro b0 hb0
      rw [hbeq]
      exact Or.inl (List.mem_append_left _ hb0)
  · -- an existing managed bean is overwritten in place
    have hfind := findOrCreateMonitor_spec userId (getField cfg "name") s.st.beans
    rw [← processedBean_id userId cfg s.st] at hfind
    rcases hfind with hfind | ⟨hxmem, hxmatch⟩
    · exact absurd hfind hid
    · rw [storeBean_update s.st _ hid] at hbeq hneq
      have hxid : (findOrCreateMonitor userId (getField cfg "name") s.st.beans).id
          = (processedBean userId cfg s.st).id := rfl
      have hxmem2 : findOrCreateMonitor userId (getField cfg "name") s.st.beans ∈ s.st.beans :=
        hxmem
      have hids : (processOne userId none cfg s).st.beans.map Bean.id
          = s.st.beans.map Bean.id := by
        rw [hbeq, List.map_map]
        refine List.map_congr_left (fun y _ => ?_)
        by_cases hy : y.id = (processedBean userId cfg s.st).id <;>
          simp [Function.comp, hy]
      refine ⟨⟨?_, ?_, ?_⟩, ?_, ?_, ?_, ?_⟩
      · rw [hneq]
        show 1 ≤ s.st.nextId
        exact hwf1
      · intro b hb
        rw [hneq]
        rw [hbeq] at hb
        obtain ⟨y, hy, hyb⟩ := List.mem_map.mp hb
        by_cases hyid : y.id = (processedBean userId cfg s.st).id
        · rw [if_pos hyid] at hyb
          have hx := hwf2 _ hxmem2
          rw [hxid] at hx
          rw [← hyb]
          show 1 ≤ (processedBean userId cfg s.st).id ∧
            (processedBean userId cfg s.st).id < s.st.nextId
          exact hx
        · rw [if_neg hyid] at hyb
          rw [← hyb]
          show 1 ≤ y.id ∧ y.id < s.st.nextId
          exact hwf2 y hy
      · rw [hids]; exact hwf3
      · rw [hbeq]
        refine ⟨processedBean userId cfg s.st, ?_,
          processedBean_matches userId cfg s.st nv hname⟩
        have h9 := List.mem_map_of_mem
          (fun x => if x.id = (processedBean userId cfg s.st).id then
            processedBean userId cfg s.st else x) hxmem2
        simpa [hxid] using h9
      · intro nm hm
        obtain ⟨b, hb, hmb⟩ := hm
        rw [hbeq]
        by_cases hbid : b.id = (processedBean userId cfg s.st).id
        · -- b is the overwritten bean; its name was the declared name
          have hbx : b = findOrCreateMonitor userId (getField cfg "name") s.st.beans := by
            refine nodup_id_inj s.st.beans hwf3 hb hxmem2 ?_
            rw [hxid]; exact hbid
          have hnm : nm = getField cfg "name" := by
            have h1 := matches_name_eq userId nm b hmb
            have h2 := matches_name_eq userId (getField cfg "name") _ hxmatch
            rw [hbx] at h1
            exact h1.symm.trans h2
          refine ⟨processedBean userId cfg s.st, ?_, ?_⟩
          · have h9 := List.mem_map_of_mem
              (fun x => if x.id = (processedBean userId cfg s.st).id then
                processedBean userId cfg s.st else x) hxmem2
            simpa [hxid] using h9
          · rw [hnm]
            exact processedBean_matches userId cfg s.st nv hname
        · refine ⟨b, ?_, hmb⟩
          have h9 := List.mem_map_of_mem
            (fun x => if x.id = (processedBean userId cfg s.st).id then
              processedBean userId cfg s.st else x) hb
          simpa [hbid] using h9
      · intro b2 hb2
        rw [hbeq] at hb2
        obtain ⟨y, hy, hyb⟩ := List.mem_map.mp hb2
        by_cases hyid : y.id = (processedBean userId cfg s.st).id
        · rw [if_pos hyid] at hyb
          rw [← hyb]
          exact Or.inr (processedBean_matches userId cfg s.st nv hname)
        · rw [if_neg hyid] at hyb
          rw [← hyb]
          exact Or.inl hy
      · intro b0 hb0
        by_cases hbid : b0.id = (processedBean userId cfg s.st).id
        · refine Or.inr ?_
          have hbx : b0 = findOrCreateMonitor userId (getField cfg "name") s.st.beans := by
            refine nodup_id_inj s.st.beans hwf3 hb0 hxmem2 ?_
            rw [hxid]; exact hbid
          rw [hbx]
          exact matches_name_eq userId _ _ hxmatch
        · refine Or.inl ?_
          rw [hbeq]
          have h9 := List.mem_map_of_mem
            (fun x => if x.id = (processedBean userId cfg s.st).id then
              processedBean userId cfg s.st else x) hb0
          simpa [hbid] using h9

theorem isManagedBy_of_matches (u : Int) (nm : Option JVal) (b : Bean)
    (h : matchesManagedName u nm b = true) : isManagedBy u b = true := by
  rw [matchesManagedName, Bool.and_assoc] at h
  obtain ⟨_, h2⟩ := Bool.and_eq_true_iff.mp h
  rw [isManagedBy, h2]

theorem validateAll_names (monitors : List Fields) (h : validateAll monitors 0 = []) :
    ∀ cfg ∈ monitors, ∃ nv, getField cfg "name" = some nv := by
  intro cfg hcfg
  obtain ⟨j, hj, hg⟩ := List.mem_iff_getElem.mp hcfg
  have hval := validateAll_nil_all_valid monitors 0 h j cfg
    (by rw [List.getElem?_eq_some_iff]; exact ⟨hj, hg⟩)
  rw [Nat.zero_add] at hval
  rw [validateMonitorConfig_valid_def, List.isEmpty_iff, validateMonitorConfig_errors] at hval
  obtain ⟨h1, _⟩ := List.append_eq_nil.mp hval
  by_cases ht : jsTruthy (getField cfg "name")
  · cases hg2 : getField cfg "name" with
    | none => rw [hg2] at ht; exact absurd ht (by simp [jsTruthy])
    | some nv => exact ⟨nv, rfl⟩
  · rw [if_neg ht] at h1
    exact absurd h1 (by simp)

theorem processList_run1 (userId : Int) (monitors : List Fields) :
    ∀ (i : Nat) (s : SyncState),
    WFState s.st →
    (∀ cfg ∈ monitors, ∃ nv, getField cfg "name" = some nv) →
    WFState (processList userId (fun _ => none) monitors i s).st ∧
    (∀ cfg ∈ monitors, hasMatch userId (getField cfg "name")
        (processList userId (fun _ => none) monitors i s).st.beans) ∧
    (∀ nm, hasMatch userId nm s.st.beans →
      hasMatch userId nm (processList userId (fun _ => none) monitors i s).st.beans) ∧
    (∀ b2, b2 ∈ (processList userId (fun _ => none) monitors i s).st.beans →
      b2 ∈ s.st.beans ∨ (isManagedBy userId b2 = true ∧
        getField b2.fields "name" ∈ monitors.map (fun m => getField m "name"))) ∧
    (∀ b0, b0 ∈ s.st.beans →
      b0 ∈ (processList userId (fun _ => none) monitors i s).st.beans ∨
      getField b0.fields "name" ∈ monitors.map (fun m => getField m "name")) := by
  induction monitors with
  | nil =>
      intro i s hwf _
      exact ⟨hwf, by simp, fun nm h => h, fun b2 h => Or.inl h, fun b0 h => Or.inl h⟩
  | cons cfg rest ih =>
      intro i s hwf hnames
      obtain ⟨nv, hname⟩ := hnames cfg (List.mem_cons_self cfg rest)
      obtain ⟨hwf1, hm1, hpres1, hcl4, hcl5⟩ :=
        processOne_store_step userId cfg s nv hname hwf
      rw [processList]
      obtain ⟨hwf2, hm2, hpres2, hcl4b, hcl5b⟩ := ih (i + 1) (processOne userId none cfg s)
        hwf1 (fun c hc => hnames c (List.mem_cons_of_mem cfg hc))
      refine ⟨hwf2, ?_, ?_, ?_, ?_⟩
      · intro c hc
        rcases List.mem_cons.mp hc with rfl | hc
        · exact hpres2 _ hm1
        · exact hm2 c hc
      · intro nm h
        exact hpres2 nm (hpres1 nm h)
      · intro b2 hb2
        rcases hcl4b b2 hb2 with hb2m | ⟨hman, hmem⟩
        · rcases hcl4 b2 hb2m with hb2s | hmt
          · exact Or.inl hb2s
          · refine Or.inr ⟨isManagedBy_of_matches _ _ _ hmt, ?_⟩
            rw [matches_name_eq _ _ _ hmt]
            exact List.mem_map_of_mem (fun m => getField m "name")
              (List.mem_cons_self cfg rest)
        · exact Or.inr ⟨hman, by rw [List.map_cons]; exact List.mem_cons_of_mem _ hmem⟩
      · intro b0 hb0
        rcases hcl5 b0 hb0 with hb0m | hnm
        · rcases hcl5b b0 hb0m with hfin | hmem
          · exact Or.inl hfin
          · exact Or.inr (by rw [List.map_cons]; exact List.mem_cons_of_mem _ hmem)
        · refine Or.inr ?_
          rw [hnm]
          exact List.mem_map_of_mem (fun m => getField m "name")
            (List.mem_cons_self cfg rest)

theorem processOne_removed (userId : Int) (sf : Option String) (cfg : Fields)
    (s : SyncState) :
    (processOne userId sf cfg s).result.removed = s.result.removed := by
  cases sf with
  | some msg => rw [processOne_fail]
  | none =>
      by_cases hact : jsTruthy (getField (storedBean userId cfg s.st).fields "active") = true
      · by_cases hmem : (storedBean userId cfg s.st).id ∈ s.st.monitorList
        · rw [processOne_ok_active_mem userId cfg s hact hmem]
          split <;> rfl
        · rw [processOne_ok_active_notmem userId cfg s hact hmem]
          split <;> rfl
      · have hact2 : jsTruthy (getField (storedBean userId cfg s.st).fields "active") = false := by
          revert hact
          cases jsTruthy (getField (storedBean userId cfg s.st).fields "active") <;> simp
        rw [processOne_ok_inactive userId cfg s hact2]
        split <;> rfl

theorem processList_removed (userId : Int) (sf : Nat → Option String)
    (monitors : List Fields) : ∀ (i : Nat) (s : SyncState),
    (processList userId sf monitors i s).result.removed = s.result.removed := by
  induction monitors with
  | nil => intro i s; rfl
  | cons cfg rest ih =>
      intro i s
      rw [processList, ih, processOne_removed]

theorem processList_run2 (userId : Int) (monitors : List Fields) :
    ∀ (i : Nat) (s : SyncState),
    WFState s.st →
    (∀ cfg ∈ monitors, ∃ nv, getField cfg "name" = some nv) →
    (∀ cfg ∈ monitors, hasMatch userId (getField cfg "name") s.st.beans) →
    (processList userId (fun _ => none) monitors i s).result.added = s.result.added := by
  induction monitors with
  | nil => intro i s _ _ _; rfl
  | cons cfg rest ih =>
      intro i s hwf hnames hmatches
      obtain ⟨nv, hname⟩ := hnames cfg (List.mem_cons_self cfg rest)
      obtain ⟨hwf1, _, hpres1, _, _⟩ := processOne_store_step userId cfg s nv hname hwf
      rw [processList, ih (i + 1) _ hwf1
        (fun c hc => hnames c (List.mem_cons_of_mem cfg hc))
        (fun c hc => hpres1 _ (hmatches c (List.mem_cons_of_mem cfg hc)))]
      obtain ⟨hfmem, _⟩ := findOrCreateMonitor_of_hasMatch userId (getField cfg "name")
        s.st.beans (hmatches cfg (List.mem_cons_self cfg rest))
      have hid : (processedBean userId cfg s.st).id ≠ 0 := by
        rw [processedBean_id]
        have := hwf.2.1 _ hfmem
        omega
      rw [processOne_ok_added, if_neg hid]

theorem WFState_components (st0 st2 : ServerState) (q : Bean → Bool)
    (hb : st2.beans = st0.beans.filter q) (hn : st2.nextId = st0.nextId)
    (hwf : WFState st0) : WFState st2 := by
  refine ⟨?_, ?_, ?_⟩
  · rw [hn]; exact hwf.1
  · intro b hbm
    rw [hb] at hbm
    rw [hn]
    exact hwf.2.1 b (List.mem_of_mem_filter hbm)
  · rw [hb]
    exact List.Nodup.sublist (List.Sublist.map Bean.id (List.filter_sublist st0.beans))
      hwf.2.2

theorem sync_post (userId : Int) (p : String) (monitors : List Fields)
    (st : ServerState) (hvalid : validateAll monitors 0 = []) (hwf : WFState st) :
    WFState (syncConfigMonitors userId (some p) (.content (some monitors))
        (fun _ => none) (fun _ => none) st).2.1 ∧
    (∀ cfg ∈ monitors, hasMatch userId (getField cfg "name")
      (syncConfigMonitors userId (some p) (.content (some monitors))
        (fun _ => none) (fun _ => none) st).2.1.beans) ∧
    (∀ b ∈ (syncConfigMonitors userId (some p) (.content (some monitors))
        (fun _ => none) (fun _ => none) st).2.1.beans,
      isManagedBy userId b = true →
      getField b.fields "name" ∈ monitors.map (fun m => getField m "name")) := by
  have hnames := validateAll_names monitors hvalid
  rw [sync_valid_unfold userId p monitors (fun _ => none) (fun _ => none) st hvalid]
  obtain ⟨hwf1, hm1, _, hcl4, hcl5⟩ := processList_run1 userId monitors 0
    { st := st, result := zeroSyncResult, trace := [] } hwf hnames
  obtain ⟨_, _, _, _, hb5, hn6, _⟩ := removeList_components
    (monitors.map fun m => getField m "name") (fun _ => none)
    (st.beans.filter (isManagedBy userId))
    (processList userId (fun _ => none) monitors 0
      { st := st, result := zeroSyncResult, trace := [] })
  refine ⟨?_, ?_, ?_⟩
  · exact WFState_components _ _ _ hb5 hn6 hwf1
  · intro cfg hcfg
    obtain ⟨bm, hbm, hmt⟩ := hm1 cfg hcfg
    refine ⟨bm, ?_, hmt⟩
    rw [hb5, List.mem_filter]
    refine ⟨hbm, ?_⟩
    simp only [Bool.not_eq_true', List.any_eq_false, Bool.and_eq_true, beq_iff_eq,
      not_and]
    intro eb heb htgt hid
    obtain ⟨hebst, _⟩ := List.mem_filter.mp heb
    have hnd : getField eb.fields "name" ∉ monitors.map (fun m => getField m "name") := by
      intro hmemd
      rw [isRemovalTarget_of_mem _ _ hmemd] at htgt
      exact Bool.false_ne_true htgt.1
    rcases hcl5 eb hebst with hin1 | hdecl2
    · apply hnd
      have heq : bm = eb := nodup_id_inj _ hwf1.2.2 hbm hin1 hid
      rw [← heq, matches_name_eq _ _ _ hmt]
      exact List.mem_map_of_mem (fun m => getField m "name") hcfg
    · exact hnd hdecl2
  · intro b hbm hman
    rw [hb5, List.mem_filter] at hbm
    obtain ⟨hbs1, hpred⟩ := hbm
    rcases hcl4 b hbs1 with hbst | hdm
    · by_contra hnd
      have hbex : b ∈ st.beans.filter (isManagedBy userId) :=
        List.mem_filter.mpr ⟨hbst, hman⟩
      have hpf : ((st.beans.filter (isManagedBy userId)).any fun eb =>
          isRemovalTarget (monitors.map fun m => getField m "name") eb
            && ((fun _ => (none : Option String)) eb.id).isNone
            && b.id == eb.id) = false := by
        revert hpred
        cases ((st.beans.filter (isManagedBy userId)).any fun eb =>
          isRemovalTarget (monitors.map fun m => getField m "name") eb
            && ((fun _ => (none : Option String)) eb.id).isNone
            && b.id == eb.id) <;> simp
      have hall := List.any_eq_false.mp hpf
      exact hall b hbex (by simp [isRemovalTarget_of_not_mem _ _ hnd])
    · exact hdm.2

theorem sync_steady (userId : Int) (p : String) (monitors : List Fields)
    (st : ServerState) (hvalid : validateAll monitors 0 = []) (hwf : WFState st)
    (hmatch : ∀ cfg ∈ monitors, hasMatch userId (getField cfg "name") st.beans)
    (hdecl : ∀ b ∈ st.beans, isManagedBy userId b = true →
      getField b.fields "name" ∈ monitors.map (fun m => getField m "name")) :
    (syncConfigMonitors userId (some p) (.content (some monitors))
        (fun _ => none) (fun _ => none) st).1.added = 0 ∧
    (syncConfigMonitors userId (some p) (.content (some monitors))
        (fun _ => none) (fun _ => none) st).1.removed = 0 := by
  have hnames := validateAll_names monitors hvalid
  rw [sync_valid_unfold userId p monitors (fun _ => none) (fun _ => none) st hvalid]
  obtain ⟨hadd, _, hrem, _, _, _, _⟩ := removeList_components
    (monitors.map fun m => getField m "name") (fun _ => none)
    (st.beans.filter (isManagedBy userId))
    (processList userId (fun _ => none) monitors 0
      { st := st, result := zeroSyncResult, trace := [] })
  constructor
  · show (removeList (monitors.map fun m => getField m "name") (fun _ => none)
      (st.beans.filter (isManagedBy userId))
      (processList userId (fun _ => none) monitors 0
        { st := st, result := zeroSyncResult, trace := [] })).result.added = 0
    rw [hadd, processList_run2 userId monitors 0
      { st := st, result := zeroSyncResult, trace := [] } hwf hnames hmatch]
    rfl
  · show (removeList (monitors.map fun m => getField m "name") (fun _ => none)
      (st.beans.filter (isManagedBy userId))
      (processList userId (fun _ => none) monitors 0
        { st := st, result := zeroSyncResult, trace := [] })).result.removed = 0
    rw [hrem, processList_removed]
    have hfil : (st.beans.filter (isManagedBy userId)).filter
        (fun eb => isRemovalTarget (monitors.map fun m => getField m "name") eb
          && (none : Option String).isNone) = [] := by
      rw [List.filter_eq_nil_iff]
      intro eb heb
      obtain ⟨hebs, hman⟩ := List.mem_filter.mp heb
      simp [isRemovalTarget_of_mem _ _ (hdecl eb hebs hman)]
    rw [hfil]
    rfl

/-- C3: idempotence of the reconcile cycle.  After one successful
syncConfigMonitors run over a well-formed store, every declared definition
has a managed match by name, every managed record bears a declared name,
and a second run with the same declared set yields added = 0 and
removed = 0. -/
theorem sync_idempotent (userId : Int) (p : String) (monitors : List Fields)
    (st : ServerState) (hvalid : validateAll monitors 0 = []) (hwf : WFState st) :
    (∀ cfg ∈ monitors, hasMatch userId (getField cfg "name")
      (syncConfigMonitors userId (some p) (.content (some monitors))
        (fun _ => none) (fun _ => none) st).2.1.beans) ∧
    (∀ b ∈ (syncConfigMonitors userId (some p) (.content (some monitors))
        (fun _ => none) (fun _ => none) st).2.1.beans,
      isManagedBy userId b = true →
      getField b.fields "name" ∈ monitors.map (fun m => getField m "name")) ∧
    (syncConfigMonitors userId (some p) (.content (some monitors))
        (fun _ => none) (fun _ => none)
      (syncConfigMonitors userId (some p) (.content (some monitors))
        (fun _ => none) (fun _ => none) st).2.1).1.added = 0 ∧
    (syncConfigMonitors userId (some p) (.content (some monitors))
        (fun _ => none) (fun _ => none)
      (syncConfigMonitors userId (some p) (.content (some monitors))
        (fun _ => none) (fun _ => none) st).2.1).1.removed = 0 := by
  obtain ⟨hwf1, hm1, hd1⟩ := sync_post userId p monitors st hvalid hwf
  obtain ⟨ha, hr⟩ := sync_steady userId p monitors _ hvalid hwf1 hm1 hd1
  exact ⟨hm1, hd1, ha, hr⟩

/-- Witness for C3 at a concrete valid declared set and the empty store. -/
theorem sync_idempotent_witness :
    validateAll [[("name", JVal.str "A"), ("type", JVal.str "http"),
        ("url", JVal.str "u")]] 0 = [] ∧
    WFState { beans := [], nextId := 1, monitorList := [] } ∧
    ((∀ cfg ∈ [[("name", JVal.str "A"), ("type", JVal.str "http"),
          ("url", JVal.str "u")]], hasMatch 1 (getField cfg "name")
        (syncConfigMonitors 1 (some "f")
          (.content (some [[("name", JVal.str "A"), ("type", JVal.str "http"),
            ("url", JVal.str "u")]]))
          (fun _ => none) (fun _ => none)
          { beans := [], nextId := 1, monitorList := [] }).2.1.beans) ∧
      (∀ b ∈ (syncConfigMonitors 1 (some "f")
          (.content (some [[("name", JVal.str "A"), ("type", JVal.str "http"),
            ("url", JVal.str "u")]]))
          (fun _ => none) (fun _ => none)
          { beans := [], nextId := 1, monitorList := [] }).2.1.beans,
        isManagedBy 1 b = true →
        getField b.fields "name"
          ∈ [[("name", JVal.str "A"), ("type", JVal.str "http"),
              ("url", JVal.str "u")]].map (fun m => getField m "name")) ∧
      (syncConfigMonitors 1 (some "f")
          (.content (some [[("name", JVal.str "A"), ("type", JVal.str "http"),
            ("url", JVal.str "u")]]))
          (fun _ => none) (fun _ => none)
        (syncConfigMonitors 1 (some "f")
          (.content (some [[("name", JVal.str "A"), ("type", JVal.str "http"),
            ("url", JVal.str "u")]]))
          (fun _ => none) (fun _ => none)
          { beans := [], nextId := 1, monitorList := [] }).2.1).1.added = 0 ∧
      (syncConfigMonitors 1 (some "f")
          (.content (some [[("name", JVal.str "A"), ("type", JVal.str "http"),
            ("url", JVal.str "u")]]))
          (fun _ => none) (fun _ => none)
        (syncConfigMonitors 1 (some "f")
          (.content (some [[("name", JVal.str "A"), ("type", JVal.str "http"),
            ("url", JVal.str "u")]]))
          (fun _ => none) (fun _ => none)
          { beans := [], nextId := 1, monitorList := [] }).2.1).1.removed = 0) :=
  ⟨by decide,
   ⟨Nat.le_refl 1, fun b hb => absurd hb (List.not_mem_nil b), List.nodup_nil⟩,
   sync_idempotent 1 "f"
     [[("name", JVal.str "A"), ("type", JVal.str "http"), ("url", JVal.str "u")]]
     { beans := [], nextId := 1, monitorList := [] }
     (by decide)
     ⟨Nat.le_refl 1, fun b hb => absurd hb (List.not_mem_nil b), List.nodup_nil⟩⟩
